import Mathlib

set_option maxHeartbeats 1000000
set_option linter.unreachableTactic false
set_option linter.unusedTactic false

namespace EosFuse

/-! ### Association-list maps and list sets

The C++ code (src/mgm/FuseServer.cc) keeps its state in std::map and std::set
containers.  We embed a map as an association list with unique-key update
semantics and a set as a duplicate-free insertion list.  Iteration order of an
embedded container is its list order. -/

def mfind {α β : Type} [DecidableEq α] : List (α × β) → α → Option β
  | [], _ => none
  | (k, v) :: rest, a => if k = a then some v else mfind rest a

def mset {α β : Type} [DecidableEq α] : List (α × β) → α → β → List (α × β)
  | [], a, b => [(a, b)]
  | (k, v) :: rest, a, b => if k = a then (k, b) :: rest else (k, v) :: mset rest a b

def merase {α β : Type} [DecidableEq α] (l : List (α × β)) (a : α) : List (α × β) :=
  l.filter (fun p => decide (p.1 ≠ a))

def sinsert {α : Type} [DecidableEq α] (l : List α) (a : α) : List α :=
  if a ∈ l then l else l ++ [a]

def serase {α : Type} [DecidableEq α] (l : List α) (a : α) : List α :=
  l.filter (fun x => decide (x ≠ a))

@[simp] theorem mfind_nil {α β : Type} [DecidableEq α] (a : α) :
    mfind ([] : List (α × β)) a = none := rfl

@[simp] theorem mfind_cons {α β : Type} [DecidableEq α] (k : α) (v : β)
    (rest : List (α × β)) (a : α) :
    mfind ((k, v) :: rest) a = if k = a then some v else mfind rest a := rfl

theorem mfind_mset_self {α β : Type} [DecidableEq α] (l : List (α × β)) (a : α) (b : β) :
    mfind (mset l a b) a = some b := by
  induction l with
  | nil => simp [mset]
  | cons p rest ih =>
    obtain ⟨k, v⟩ := p
    by_cases h : k = a <;> simp [mset, h, ih]

theorem mfind_mset_ne {α β : Type} [DecidableEq α] (l : List (α × β)) (a x : α) (b : β)
    (hx : x ≠ a) : mfind (mset l a b) x = mfind l x := by
  induction l with
  | nil => simp [mset, mfind, Ne.symm hx]
  | cons p rest ih =>
    obtain ⟨k, v⟩ := p
    by_cases h : k = a
    · subst h
      simp [mset, mfind, Ne.symm hx]
    · simp [mset, h, mfind, ih]

theorem mset_mset_self {α β : Type} [DecidableEq α] (l : List (α × β)) (a : α)
    (b c : β) : mset (mset l a b) a c = mset l a c := by
  induction l with
  | nil => simp [mset]
  | cons p rest ih =>
    obtain ⟨k, v⟩ := p
    by_cases h : k = a <;> simp [mset, h, ih]

theorem mfind_merase {α β : Type} [DecidableEq α] (l : List (α × β)) (a x : α) :
    mfind (merase l a) x = if x = a then none else mfind l x := by
  induction l with
  | nil => simp [merase]
  | cons p rest ih =>
    obtain ⟨k, v⟩ := p
    by_cases h : k = a
    · subst h
      have hklist : merase ((k, v) :: rest) k = merase rest k := by
        simp [merase, List.filter_cons]
      rw [hklist, ih]
      by_cases h2 : x = k
      · simp [h2]
      · simp [h2, Ne.symm h2]
    · have hklist : merase ((k, v) :: rest) a = (k, v) :: merase rest a := by
        simp [merase, List.filter_cons, h]
      rw [hklist]
      by_cases h2 : k = x
      · subst h2
        simp [h]
      · simp [h2, ih]

theorem mem_serase {α : Type} [DecidableEq α] (l : List α) (a x : α) :
    x ∈ serase l a ↔ x ∈ l ∧ x ≠ a := by
  simp [serase, List.mem_filter]

/-! ### Errno values (linux) and cap mode bits (FuseServer.cc lines 45-50, POSIX) -/

def EPERM : Nat := 1
def ENOENT : Nat := 2
def EAGAIN : Nat := 11
def EEXIST : Nat := 17
def EINVAL : Nat := 22
def ENAMETOOLONG : Nat := 36
def ENOTEMPTY : Nat := 39
def ETIMEDOUT : Nat := 110
def EDQUOT : Nat := 122

def X_OK : Nat := 1
def W_OK : Nat := 2
def R_OK : Nat := 4
def D_OK : Nat := 8
def M_OK : Nat := 16
def C_OK : Nat := 32
def SA_OK : Nat := 64
def U_OK : Nat := 128
def SU_OK : Nat := 256

/-- Reserved hardlink xattr key sys.eos.mdino (FuseServer.cc line 52). -/
def k_mdino : String := "sys.eos.mdino"

/-- Reserved hardlink xattr key sys.eos.nlink (FuseServer.cc line 53). -/
def k_nlink : String := "sys.eos.nlink"

/-! ### Capabilities and the cap store (FuseServer::Caps)

A capability is an eos::fusex::cap protobuf message.  Unset protobuf scalar
fields read as zero and unset string fields read as the empty string, which is
what the default constructor used by Caps::Get produces. -/

structure Cap where
  authid : String
  id : Nat
  clientid : String
  clientuuid : String
  uid : Nat
  gid : Nat
  mode : Nat
  vtime : Nat
  deriving Repr, DecidableEq

/-- A default-constructed capability: every protobuf field unset. -/
def Cap.default0 : Cap :=
  { authid := "", id := 0, clientid := "", clientuuid := "",
    uid := 0, gid := 0, mode := 0, vtime := 0 }

/-- FuseServer::Caps state: the primary map by auth-id and the four secondary
views (time-ordered multimap, per-client auth-id sets, per-client inode sets,
per-inode auth-id sets). -/
structure CapStore where
  mCaps : List (String × Cap)
  mTimeOrderedCap : List (Nat × String)
  mClientCaps : List (String × List String)
  mClientInoCaps : List (String × List Nat)
  mInodeCaps : List (Nat × List String)
  deriving Repr, DecidableEq

def CapStore.empty : CapStore :=
  { mCaps := [], mTimeOrderedCap := [], mClientCaps := [],
    mClientInoCaps := [], mInodeCaps := [] }

/-- FuseServer::Caps::Get (FuseServer.cc 949-959): return the stored cap for
the auth-id, or a freshly default-constructed cap when the id is unknown. -/
def CapStore.get (s : CapStore) (a : String) : Cap :=
  match mfind s.mCaps a with
  | some c => c
  | none => Cap.default0

/-- FuseServer::Caps::Store (FuseServer.cc 872-899): insert or replace by
auth-id and update all views; the time-ordered entry is only added when the
auth-id was not yet present. -/
def CapStore.store (s : CapStore) (ecap : Cap) : CapStore :=
  let timeOrdered :=
    match mfind s.mCaps ecap.authid with
    | some _ => s.mTimeOrderedCap
    | none => s.mTimeOrderedCap ++ [(ecap.vtime, ecap.authid)]
  { mCaps := mset s.mCaps ecap.authid ecap
    mTimeOrderedCap := timeOrdered
    mClientCaps :=
      mset s.mClientCaps ecap.clientid
        (sinsert ((mfind s.mClientCaps ecap.clientid).getD []) ecap.authid)
    mClientInoCaps :=
      mset s.mClientInoCaps ecap.clientid
        (sinsert ((mfind s.mClientInoCaps ecap.clientid).getD []) ecap.id)
    mInodeCaps :=
      mset s.mInodeCaps ecap.id
        (sinsert ((mfind s.mInodeCaps ecap.id).getD []) ecap.authid) }

/-- One iteration of the loop body of FuseServer::Caps::Delete
(FuseServer.cc 1513-1530) for a single auth-id pinned to mdIno: erase the
auth-id from every client set, and when the cap is still in the primary map,
erase mdIno from the inode set of its client and drop it from the primary map. -/
def CapStore.deleteStep (mdIno : Nat) (st : CapStore) (a : String) : CapStore :=
  match mfind st.mCaps a with
  | some cap =>
    { st with
      mClientCaps := st.mClientCaps.map (fun p => (p.1, serase p.2 a))
      mClientInoCaps :=
        match mfind st.mClientInoCaps cap.clientid with
        | some inos => mset st.mClientInoCaps cap.clientid (serase inos mdIno)
        | none => st.mClientInoCaps
      mCaps := merase st.mCaps a }
  | none =>
    { st with mClientCaps := st.mClientCaps.map (fun p => (p.1, serase p.2 a)) }

/-- FuseServer::Caps::Delete (FuseServer.cc 1504-1535): remove every cap
registered under the inode from the primary map, the client views and the
inode view.  Returns ENOENT when the inode has no registered caps.  Note that
the function body never touches mTimeOrderedCap. -/
def CapStore.delete (s : CapStore) (mdIno : Nat) : CapStore × Nat :=
  match mfind s.mInodeCaps mdIno with
  | none => (s, ENOENT)
  | some authids =>
    let s1 := authids.foldl (CapStore.deleteStep mdIno) s
    ({ s1 with mInodeCaps := merase s1.mInodeCaps mdIno }, 0)

/-- FuseServer::ValidateCAP (FuseServer.cc 2243-2284).  The request carries the
authid used for the lookup and the inode pair; errno results become error
values.  The checks run in source order: missing cap (id zero) is ENOENT, an
inode mismatch is EINVAL, a satisfied mode mask with a vtime within the 60 s
revocation margin is ETIMEDOUT, and a mode shortfall is EPERM. -/
def validateCAP (s : CapStore) (mdAuthid : String) (mdIno mdPino M now : Nat) :
    Except Nat Cap :=
  if (s.get mdAuthid).id = 0 then Except.error ENOENT
  else if (s.get mdAuthid).id ≠ mdIno ∧ (s.get mdAuthid).id ≠ mdPino then
    Except.error EINVAL
  else if (s.get mdAuthid).mode &&& M = M then
    if (s.get mdAuthid).vtime ≤ now + 60 then Except.error ETIMEDOUT
    else Except.ok (s.get mdAuthid)
  else Except.error EPERM

/-! ### C1 / C9: ValidateCAP and Caps::Get -/

/-- A one-cap store used by concrete evaluations below. -/
def capC1 : Cap :=
  { authid := "cap-one", id := 5, clientid := "c1", clientuuid := "u1",
    uid := 0, gid := 0, mode := 2, vtime := 1000000 }

def storeC1 : CapStore := CapStore.empty.store capC1

/-- C1 counterexample: the store holds a cap whose inode id matches the
request (id 5), whose mode covers the required mask 2 and whose vtime lies far
beyond now + 60, so the existential reading of the claim is satisfied; yet
ValidateCAP for a request carrying an unknown auth-id fails with ENOENT.
Success is keyed on the auth-id of the request, not on the existence of a
matching cap in the store. -/
theorem validateCAP_exists_counterexample :
    (∃ p ∈ storeC1.mCaps, (p.2.id = 5 ∨ p.2.id = 0) ∧
      p.2.mode &&& 2 = 2 ∧ 0 + 60 < p.2.vtime) ∧
    validateCAP storeC1 "other" 5 0 2 0 = Except.error ENOENT := by
  constructor
  · exact ⟨("cap-one", capC1), by decide, by decide⟩
  · rfl

/-- C1 (amended): ValidateCAP(md, M) succeeds if and only if the cap stored
under the auth-id of the request exists (nonzero inode id), its id equals
md_ino or md_pino, its mode covers M, and its vtime exceeds now + 60; it
fails with ETIMEDOUT exactly when that same cap passes the id and mode checks
but its vtime is within 60 seconds of now or already past. -/
theorem validateCAP_lookup_exact (s : CapStore) (a : String) (ino pino M now : Nat) :
    (∀ c : Cap, validateCAP s a ino pino M now = Except.ok c ↔
      (c = s.get a ∧ c.id ≠ 0 ∧ (c.id = ino ∨ c.id = pino) ∧
        c.mode &&& M = M ∧ now + 60 < c.vtime)) ∧
    (validateCAP s a ino pino M now = Except.error ETIMEDOUT ↔
      ((s.get a).id ≠ 0 ∧ ((s.get a).id = ino ∨ (s.get a).id = pino) ∧
        (s.get a).mode &&& M = M ∧ (s.get a).vtime ≤ now + 60)) := by
  constructor
  · intro c
    constructor
    · intro h
      unfold validateCAP at h
      split_ifs at h with h1 h2 h3 h4
      have hc : s.get a = c := Except.ok.inj h
      subst hc
      refine ⟨rfl, h1, ?_, h3, by omega⟩
      rcases not_and_or.mp h2 with h | h
      · exact Or.inl (not_not.mp h)
      · exact Or.inr (not_not.mp h)
    · rintro ⟨rfl, hid, hio, hm, hv⟩
      unfold validateCAP
      rw [if_neg hid, if_neg (by tauto), if_pos hm, if_neg (by omega)]
  · constructor
    · intro h
      unfold validateCAP at h
      split_ifs at h with h1 h2 h3 h4
      all_goals try exact absurd (Except.error.inj h) (by decide)
      refine ⟨h1, ?_, h3, h4⟩
      rcases not_and_or.mp h2 with h | h
      · exact Or.inl (not_not.mp h)
      · exact Or.inr (not_not.mp h)
    · rintro ⟨hid, hio, hm, hv⟩
      unfold validateCAP
      rw [if_neg hid, if_neg (by tauto), if_pos hm, if_pos hv]

/-- C9: Caps::Get is total and never yields a null result: a present auth-id
returns the stored cap, an absent one returns a default-constructed cap with
id, mode and vtime all zero, and ValidateCAP reports the miss as ENOENT via
the id() == 0 test. -/
theorem caps_get_total_default (s : CapStore) (a : String) :
    (∀ c : Cap, mfind s.mCaps a = some c → s.get a = c) ∧
    (mfind s.mCaps a = none →
      s.get a = Cap.default0 ∧ (s.get a).id = 0 ∧ (s.get a).mode = 0 ∧
        (s.get a).vtime = 0 ∧
        ∀ ino pino M now : Nat, validateCAP s a ino pino M now = Except.error ENOENT) := by
  constructor
  · intro c h; simp [CapStore.get, h]
  · intro h
    have hg : s.get a = Cap.default0 := by simp [CapStore.get, h]
    refine ⟨hg, by rw [hg]; rfl, by rw [hg]; rfl, by rw [hg]; rfl, ?_⟩
    intro ino pino M now
    unfold validateCAP
    rw [hg]
    rfl

/-- C9 witness: the characterization evaluated on the concrete one-cap store,
both for a present and for an absent auth-id. -/
theorem caps_get_total_default_witness :
    storeC1.get "cap-one" = capC1 ∧ storeC1.get "nope" = Cap.default0 ∧
      validateCAP storeC1 "nope" 7 0 0 0 = Except.error ENOENT :=
  ⟨(caps_get_total_default storeC1 "cap-one").1 capC1 (by rfl),
    ((caps_get_total_default storeC1 "nope").2 (by rfl)).1,
    (((caps_get_total_default storeC1 "nope").2 (by rfl)).2.2.2.2) 7 0 0 0⟩

/-! ### C2: broadcast recipient computation (BroadcastRelease / BroadcastMD) -/

/-- Recipient collection loop of FuseServer::Caps::BroadcastRelease
(FuseServer.cc 1103-1129): iterate the auth-ids registered under the inode,
skip auth-ids missing from the primary map, skip the originating auth-id,
skip caps of the same client mount (uuid of the reference cap), and keep
caps with a nonzero id. -/
def bcReleaseLoop (s : CapStore) (a0 u0 : String) : List String → List Cap
  | [] => []
  | a :: rest =>
    match mfind s.mCaps a with
    | none => bcReleaseLoop s a0 u0 rest
    | some cap =>
      if cap.authid = a0 then bcReleaseLoop s a0 u0 rest
      else if cap.clientuuid = u0 then bcReleaseLoop s a0 u0 rest
      else if cap.id ≠ 0 then cap :: bcReleaseLoop s a0 u0 rest
      else bcReleaseLoop s a0 u0 rest

/-- FuseServer::Caps::BroadcastRelease (FuseServer.cc 1083-1142): the
reference cap is looked up by the authid of the md record; the broadcast
inode is its id, or md_pino of the record when the reference cap has none. -/
def broadcastReleaseCaps (s : CapStore) (mdAuthid : String) (mdPino : Nat) : List Cap :=
  bcReleaseLoop s mdAuthid (s.get mdAuthid).clientuuid
    ((mfind s.mInodeCaps
        (if (s.get mdAuthid).id ≠ 0 then (s.get mdAuthid).id else mdPino)).getD [])

/-- Recipient collection loop of FuseServer::Caps::BroadcastMD
(FuseServer.cc 1276-1311): like the release loop, but a client uuid already
recorded in clients_sent is skipped, so each distinct recipient uuid receives
at most one message. -/
def bcMDLoop (s : CapStore) (a0 u0 : String) : List String → List String → List Cap
  | [], _ => []
  | a :: rest, sent =>
    match mfind s.mCaps a with
    | none => bcMDLoop s a0 u0 rest sent
    | some cap =>
      if cap.authid = a0 then bcMDLoop s a0 u0 rest sent
      else if cap.clientuuid = u0 then bcMDLoop s a0 u0 rest sent
      else if cap.id ≠ 0 ∧ cap.clientuuid ∉ sent then
        cap :: bcMDLoop s a0 u0 rest (cap.clientuuid :: sent)
      else bcMDLoop s a0 u0 rest sent

/-- FuseServer::Caps::BroadcastMD (FuseServer.cc 1256-1328): recipients for an
MD update broadcast on the parent inode md_pino. -/
def broadcastMDCaps (s : CapStore) (mdAuthid : String) (mdPino : Nat) : List Cap :=
  bcMDLoop s mdAuthid (s.get mdAuthid).clientuuid
    ((mfind s.mInodeCaps mdPino).getD []) []

/-- Caps present in the inode view of an inode, in registration order. -/
def inodeCapsOf (s : CapStore) (i : Nat) : List Cap :=
  ((mfind s.mInodeCaps i).getD []).filterMap (mfind s.mCaps)

/-- The recipient predicate of the spec: the cap is not the originating one
and belongs to a different client mount. -/
def keepCap (a0 u0 : String) (c : Cap) : Bool :=
  decide (c.authid ≠ a0) && decide (c.clientuuid ≠ u0)

theorem bcReleaseLoop_eq_filter (s : CapStore) (a0 u0 : String) (i : Nat) (hi : i ≠ 0)
    (l : List String) :
    (∀ a ∈ l, ∃ c, mfind s.mCaps a = some c ∧ c.authid = a ∧ c.id = i) →
    bcReleaseLoop s a0 u0 l = (l.filterMap (mfind s.mCaps)).filter (keepCap a0 u0) := by
  induction l with
  | nil => intro _; rfl
  | cons a rest ih =>
    intro hwf
    obtain ⟨c, hc, hca, hci⟩ := hwf a (List.mem_cons_self a rest)
    have ih2 := ih (fun x hx => hwf x (List.mem_cons_of_mem a hx))
    have hid : c.id ≠ 0 := by rw [hci]; exact hi
    by_cases h1 : c.authid = a0
    · simp [bcReleaseLoop, hc, h1, keepCap, ih2]
    · by_cases h2 : c.clientuuid = u0
      · simp [bcReleaseLoop, hc, h1, h2, keepCap, ih2]
      · simp [bcReleaseLoop, hc, h1, h2, hid, keepCap, ih2]

theorem bcMDLoop_spec (s : CapStore) (a0 u0 : String) (i : Nat) (hi : i ≠ 0)
    (l : List String) :
    (∀ a ∈ l, ∃ c, mfind s.mCaps a = some c ∧ c.authid = a ∧ c.id = i) →
    ∀ sent : List String,
      (∀ c ∈ bcMDLoop s a0 u0 l sent,
          c ∈ (l.filterMap (mfind s.mCaps)).filter (keepCap a0 u0) ∧
            c.clientuuid ∉ sent) ∧
      (∀ u, u ∈ (bcMDLoop s a0 u0 l sent).map Cap.clientuuid ↔
          (u ∈ ((l.filterMap (mfind s.mCaps)).filter (keepCap a0 u0)).map
              Cap.clientuuid ∧ u ∉ sent)) ∧
      ((bcMDLoop s a0 u0 l sent).map Cap.clientuuid).Nodup := by
  induction l with
  | nil =>
    intro _ sent
    refine ⟨by simp [bcMDLoop], by simp [bcMDLoop], by simp [bcMDLoop]⟩
  | cons a rest ih =>
    intro hwf sent
    obtain ⟨c, hc, hca, hci⟩ := hwf a (List.mem_cons_self a rest)
    have hwfr := fun x hx => hwf x (List.mem_cons_of_mem a hx)
    have hid : c.id ≠ 0 := by rw [hci]; exact hi
    by_cases h1 : c.authid = a0
    · simpa [bcMDLoop, hc, h1, keepCap] using ih hwfr sent
    · by_cases h2 : c.clientuuid = u0
      · simpa [bcMDLoop, hc, h1, h2, keepCap] using ih hwfr sent
      · by_cases hs : c.clientuuid ∈ sent
        · obtain ⟨ihmem, ihuuid, ihnd⟩ := ih hwfr sent
          have hloop : bcMDLoop s a0 u0 (a :: rest) sent = bcMDLoop s a0 u0 rest sent := by
            simp [bcMDLoop, hc, h1, h2, hs]
          have hfil : ((a :: rest).filterMap (mfind s.mCaps)).filter (keepCap a0 u0) =
              c :: (rest.filterMap (mfind s.mCaps)).filter (keepCap a0 u0) := by
            simp [hc, keepCap, h1, h2]
          rw [hloop, hfil]
          refine ⟨?_, ?_, ihnd⟩
          · intro x hx
            exact ⟨List.mem_cons_of_mem c (ihmem x hx).1, (ihmem x hx).2⟩
          · intro u
            rw [ihuuid u, List.map_cons, List.mem_cons]
            constructor
            · rintro ⟨hm, hns⟩
              exact ⟨Or.inr hm, hns⟩
            · rintro ⟨hm | hm, hns⟩
              · exact absurd (by rw [hm]; exact hs) hns
              · exact ⟨hm, hns⟩
        · obtain ⟨ihmem, ihuuid, ihnd⟩ := ih hwfr (c.clientuuid :: sent)
          have hloop : bcMDLoop s a0 u0 (a :: rest) sent =
              c :: bcMDLoop s a0 u0 rest (c.clientuuid :: sent) := by
            simp [bcMDLoop, hc, h1, h2, hid, hs]
          have hfil : ((a :: rest).filterMap (mfind s.mCaps)).filter (keepCap a0 u0) =
              c :: (rest.filterMap (mfind s.mCaps)).filter (keepCap a0 u0) := by
            simp [hc, keepCap, h1, h2]
          rw [hloop, hfil]
          refine ⟨?_, ?_, ?_⟩
          · intro x hx
            rcases List.mem_cons.mp hx with h | h
            · subst h
              exact ⟨List.mem_cons_self x _, hs⟩
            · refine ⟨List.mem_cons_of_mem c (ihmem x h).1, ?_⟩
              intro hcon
              exact (ihmem x h).2 (List.mem_cons_of_mem _ hcon)
          · intro u
            simp only [List.map_cons]
            constructor
            · intro hm
              rcases List.mem_cons.mp hm with h | h
              · refine ⟨List.mem_cons.mpr (Or.inl h), ?_⟩
                rw [h]; exact hs
              · have h2u := (ihuuid u).mp h
                refine ⟨List.mem_cons.mpr (Or.inr h2u.1), ?_⟩
                intro hcon
                exact h2u.2 (List.mem_cons_of_mem _ hcon)
            · rintro ⟨hm, hns⟩
              rcases List.mem_cons.mp hm with h | h
              · exact List.mem_cons.mpr (Or.inl h)
              · by_cases hu : u = c.clientuuid
                · exact List.mem_cons.mpr (Or.inl hu)
                · refine List.mem_cons.mpr (Or.inr ((ihuuid u).mpr ⟨h, ?_⟩))
                  intro hcon
                  rcases List.mem_cons.mp hcon with h3 | h3
                  · exact hu h3
                  · exact hns h3
          · simp only [List.map_cons, List.nodup_cons]
            refine ⟨?_, ihnd⟩
            intro hcon
            exact ((ihuuid c.clientuuid).mp hcon).2 (List.mem_cons_self _ _)

/-- C2: for a mutation broadcast originating from the cap with auth-id a0
(owned by client uuid u0 = clientuuid of that cap) on inode i, the caps that
receive a CAP-RELEASE are exactly the caps registered under inode i whose
auth-id differs from a0 and whose client uuid differs from u0; for an MD
broadcast on inode i every message goes to a cap of that same filtered set,
the set of recipient client uuids is exactly the set of uuids of the filtered
set, and each distinct recipient uuid receives at most one message. -/
theorem broadcast_recipients_exact (s : CapStore) (a0 : String) (c0 : Cap)
    (i mdPino : Nat)
    (h0 : mfind s.mCaps a0 = some c0) (hid : c0.id = i) (hi : i ≠ 0)
    (hwf : ∀ a ∈ (mfind s.mInodeCaps i).getD [],
      ∃ c, mfind s.mCaps a = some c ∧ c.authid = a ∧ c.id = i) :
    (broadcastReleaseCaps s a0 mdPino =
      (inodeCapsOf s i).filter (keepCap a0 c0.clientuuid)) ∧
    (∀ c ∈ broadcastMDCaps s a0 i,
        c ∈ (inodeCapsOf s i).filter (keepCap a0 c0.clientuuid)) ∧
    (∀ u, u ∈ (broadcastMDCaps s a0 i).map Cap.clientuuid ↔
        u ∈ ((inodeCapsOf s i).filter (keepCap a0 c0.clientuuid)).map
          Cap.clientuuid) ∧
    ((broadcastMDCaps s a0 i).map Cap.clientuuid).Nodup := by
  have hget : s.get a0 = c0 := by simp [CapStore.get, h0]
  have hcid : c0.id ≠ 0 := by rw [hid]; exact hi
  obtain ⟨mdmem, mduuid, mdnd⟩ :=
    bcMDLoop_spec s a0 c0.clientuuid i hi ((mfind s.mInodeCaps i).getD []) hwf []
  refine ⟨?_, ?_, ?_, ?_⟩
  · unfold broadcastReleaseCaps
    rw [hget, if_pos hcid, hid]
    exact bcReleaseLoop_eq_filter s a0 c0.clientuuid i hi _ hwf
  · intro c hc
    unfold broadcastMDCaps at hc
    rw [hget] at hc
    exact (mdmem c hc).1
  · intro u
    unfold broadcastMDCaps
    rw [hget]
    rw [mduuid u]
    simp [inodeCapsOf]
  · unfold broadcastMDCaps
    rw [hget]
    exact mdnd

/-- Concrete caps for the C2 witness: the origin cap a0 and a same-mount cap
s1 of client uuid u0, and two caps b1 b2 of one remote client mount u1, all
registered under inode 9. -/
def capOrigin : Cap :=
  { authid := "a0", id := 9, clientid := "c0", clientuuid := "u0",
    uid := 0, gid := 0, mode := 15, vtime := 5000 }

def capSame : Cap := { capOrigin with authid := "s1" }

def capB1 : Cap :=
  { authid := "b1", id := 9, clientid := "cb", clientuuid := "u1",
    uid := 0, gid := 0, mode := 15, vtime := 5000 }

def capB2 : Cap := { capB1 with authid := "b2" }

def storeC2 : CapStore :=
  (((CapStore.empty.store capOrigin).store capSame).store capB1).store capB2

/-- C2 witness: on the concrete store the release broadcast reaches exactly
the two remote caps and the MD broadcast reaches at most one cap per client
uuid. -/
theorem broadcast_recipients_exact_witness :
    broadcastReleaseCaps storeC2 "a0" 0 =
      (inodeCapsOf storeC2 9).filter (keepCap "a0" "u0") ∧
    (∀ c ∈ broadcastMDCaps storeC2 "a0" 9,
        c ∈ (inodeCapsOf storeC2 9).filter (keepCap "a0" "u0")) ∧
    ((broadcastMDCaps storeC2 "a0" 9).map Cap.clientuuid).Nodup := by
  have hwf : ∀ a ∈ (mfind storeC2.mInodeCaps 9).getD [],
      ∃ c, mfind storeC2.mCaps a = some c ∧ c.authid = a ∧ c.id = 9 := by
    intro a ha
    have ha2 : a ∈ (["a0", "s1", "b1", "b2"] : List String) := ha
    fin_cases ha2
    · exact ⟨capOrigin, rfl, rfl, rfl⟩
    · exact ⟨capSame, rfl, rfl, rfl⟩
    · exact ⟨capB1, rfl, rfl, rfl⟩
    · exact ⟨capB2, rfl, rfl, rfl⟩
  have h := broadcast_recipients_exact storeC2 "a0" capOrigin 9 0 rfl rfl
    (by decide) hwf
  exact ⟨h.1, h.2.1, h.2.2.2⟩

/-! ### C10: heartbeat auth extensions (Clients::Dispatch) -/

theorem mfind_eq_none_of_not_mem_keys {β : Type} (l : List (String × β)) (a : String)
    (h : a ∉ l.map Prod.fst) : mfind l a = none := by
  induction l with
  | nil => rfl
  | cons p rest ih =>
    obtain ⟨k, v⟩ := p
    simp only [List.map_cons, List.mem_cons] at h
    push_neg at h
    simp [Ne.symm h.1, ih h.2]

theorem mfind_of_mem_nodup {β : Type} (l : List (String × β)) (a : String) (d : β)
    (hnd : (l.map Prod.fst).Nodup) (hm : (a, d) ∈ l) : mfind l a = some d := by
  induction l with
  | nil => cases hm
  | cons p rest ih =>
    obtain ⟨k, v⟩ := p
    simp only [List.map_cons, List.nodup_cons] at hnd
    rcases List.mem_cons.mp hm with h | h
    · cases h
      simp
    · have hka : k ≠ a := by
        intro hk
        subst hk
        exact hnd.1 (List.mem_map.mpr ⟨(k, d), h, rfl⟩)
      simp [hka, ih hnd.2 h]

/-- One authextension entry applied by FuseServer::Clients::Dispatch
(FuseServer.cc 229-240): the cap is looked up via Caps::Get (which yields a
default cap with vtime 0 for an unknown auth-id) and, when its vtime is
nonzero, its vtime is extended in place by the requested delta; otherwise
nothing happens. -/
def authExtStep (cs : List (String × Cap)) (e : String × Nat) : List (String × Cap) :=
  match mfind cs e.1 with
  | some c =>
    if c.vtime ≠ 0 then mset cs e.1 { c with vtime := c.vtime + e.2 } else cs
  | none => cs

/-- The authextension map of one heartbeat applied entry by entry. -/
def applyAuthExtensions (cs : List (String × Cap)) (exts : List (String × Nat)) :
    List (String × Cap) :=
  exts.foldl authExtStep cs

/-- FuseServer::Clients::Dispatch (FuseServer.cc 198-276), restricted to its
effect on the primary cap map through the authextension entries of an
accepted heartbeat: a heartbeat whose delay exceeds the offline window is
dropped before any extension is applied. -/
def dispatchAuthExt (offWin delay : Nat) (cs : List (String × Cap))
    (exts : List (String × Nat)) : List (String × Cap) :=
  if delay > offWin then cs else applyAuthExtensions cs exts

theorem applyAuthExtensions_mfind (exts : List (String × Nat)) :
    ∀ cs : List (String × Cap), (exts.map Prod.fst).Nodup →
    ∀ a : String,
      (mfind exts a = none → mfind (applyAuthExtensions cs exts) a = mfind cs a) ∧
      (∀ d, mfind exts a = some d →
        mfind (applyAuthExtensions cs exts) a =
          match mfind cs a with
          | some c =>
            if c.vtime ≠ 0 then some { c with vtime := c.vtime + d } else some c
          | none => none) := by
  induction exts with
  | nil =>
    intro cs _ a
    refine ⟨fun _ => rfl, fun d hd => ?_⟩
    cases hd
  | cons e rest ih =>
    intro cs hnd a
    obtain ⟨k, dd⟩ := e
    simp only [List.map_cons, List.nodup_cons] at hnd
    have happ : applyAuthExtensions cs ((k, dd) :: rest) =
        applyAuthExtensions (authExtStep cs (k, dd)) rest := rfl
    by_cases hka : k = a
    · subst hka
      have hrest : mfind rest k = none :=
        mfind_eq_none_of_not_mem_keys rest k hnd.1
      have hstep : mfind (authExtStep cs (k, dd)) k =
          match mfind cs k with
          | some c =>
            if c.vtime ≠ 0 then some { c with vtime := c.vtime + dd } else some c
          | none => none := by
        unfold authExtStep
        cases hc : mfind cs k with
        | none => simp [hc]
        | some c =>
          by_cases hv : c.vtime ≠ 0
          · simp [hc, hv, mfind_mset_self]
          · simp [hc, hv]
      constructor
      · intro hnone
        simp at hnone
      · intro d hd
        have hd2 : d = dd := by
          simp at hd
          omega
        rw [hd2, happ, ((ih (authExtStep cs (k, dd)) hnd.2 k).1 hrest), hstep]
    · have hfind : mfind ((k, dd) :: rest) a = mfind rest a := by simp [hka]
      have hstep : mfind (authExtStep cs (k, dd)) a = mfind cs a := by
        unfold authExtStep
        cases hc : mfind cs k with
        | none => rfl
        | some c =>
          by_cases hv : c.vtime ≠ 0
          · simp [hv, mfind_mset_ne _ _ _ _ (Ne.symm hka)]
          · simp [hv]
      constructor
      · intro hnone
        rw [hfind] at hnone
        rw [happ, ((ih (authExtStep cs (k, dd)) hnd.2 a).1 hnone), hstep]
      · intro d hd
        rw [hfind] at hd
        rw [happ, ((ih (authExtStep cs (k, dd)) hnd.2 a).2 d hd), hstep]

/-- C10: for an accepted heartbeat (delay within the offline window) whose
authextension entries carry pairwise distinct auth-ids, every entry
(auth-id, delta) extends the vtime of the cap with that auth-id by exactly
delta seconds provided the cap exists and its vtime is nonzero; entries for
unknown auth-ids are silently ignored, caps with vtime zero are untouched,
caps not named are untouched, and no upper bound (such as the 7-day lease
ceiling of Clients::leasetime) is applied to the extended vtime. -/
theorem dispatch_authextension_exact (offWin delay : Nat)
    (cs : List (String × Cap)) (exts : List (String × Nat))
    (hacc : delay ≤ offWin) (hnd : (exts.map Prod.fst).Nodup) :
    (∀ a d c, (a, d) ∈ exts → mfind cs a = some c → c.vtime ≠ 0 →
        mfind (dispatchAuthExt offWin delay cs exts) a =
          some { c with vtime := c.vtime + d }) ∧
    (∀ a d c, (a, d) ∈ exts → mfind cs a = some c → c.vtime = 0 →
        mfind (dispatchAuthExt offWin delay cs exts) a = some c) ∧
    (∀ a d, (a, d) ∈ exts → mfind cs a = none →
        mfind (dispatchAuthExt offWin delay cs exts) a = none) ∧
    (∀ a, a ∉ exts.map Prod.fst →
        mfind (dispatchAuthExt offWin delay cs exts) a = mfind cs a) := by
  have hgate : dispatchAuthExt offWin delay cs exts = applyAuthExtensions cs exts := by
    unfold dispatchAuthExt
    rw [if_neg (by omega)]
  rw [hgate]
  refine ⟨?_, ?_, ?_, ?_⟩
  · intro a d c hm hc hv
    have h := (applyAuthExtensions_mfind exts cs hnd a).2 d
      (mfind_of_mem_nodup exts a d hnd hm)
    rw [h, hc]
    simp [hv]
  · intro a d c hm hc hv
    have h := (applyAuthExtensions_mfind exts cs hnd a).2 d
      (mfind_of_mem_nodup exts a d hnd hm)
    rw [h, hc]
    simp [hv]
  · intro a d hm hc
    have h := (applyAuthExtensions_mfind exts cs hnd a).2 d
      (mfind_of_mem_nodup exts a d hnd hm)
    rw [h, hc]
  · intro a hm
    exact (applyAuthExtensions_mfind exts cs hnd a).1
      (mfind_eq_none_of_not_mem_keys exts a hm)

/-- Concrete cap for the C10 witness: a valid lease of 300 s. -/
def capLease : Cap :=
  { authid := "a", id := 4, clientid := "c", clientuuid := "u",
    uid := 0, gid := 0, mode := 15, vtime := 300 }

/-- C10 witness: a heartbeat with delay 0 extends the cap by 10000000 s, far
beyond the 7-day leasetime ceiling, and silently ignores an unknown auth-id. -/
theorem dispatch_authextension_exact_witness :
    mfind (dispatchAuthExt 30 0 [("a", capLease)] [("a", 10000000), ("ghost", 5)]) "a" =
      some { capLease with vtime := capLease.vtime + 10000000 } ∧
    mfind (dispatchAuthExt 30 0 [("a", capLease)] [("a", 10000000), ("ghost", 5)]) "ghost" =
      none ∧
    capLease.vtime + 10000000 > 7 * 86400 := by
  have h := dispatch_authextension_exact 30 0 [("a", capLease)]
    [("a", 10000000), ("ghost", 5)] (by decide) (by decide)
  exact ⟨h.1 "a" 10000000 capLease (by decide) rfl (by decide),
    h.2.2.1 "ghost" 5 (by decide) rfl, by decide⟩

/-! ### C6: MonitorHeartBeat sweep (Clients::MonitorHeartBeat) -/

inductive CState
  | ONLINE
  | VOLATILE
  | OFFLINE
  | EVICTED
  deriving Repr, DecidableEq

structure HBeat where
  clock : Nat
  uuid : String
  protversion : Nat
  shutdown : Bool
  deriving Repr, DecidableEq

structure ClientRec where
  heartbeat : HBeat
  state : CState
  deriving Repr, DecidableEq

/-- Outcome of one sweep iteration for one session: the state written back,
whether LockTracker dropLocks was invoked during this iteration, whether the
session is erased from the registry, and whether an EVICT message is sent. -/
structure SweepOutcome where
  state : CState
  droppedLocks : Bool
  removed : Bool
  evictMsg : Bool
  deriving Repr, DecidableEq

/-- One session of one iteration of FuseServer::Clients::MonitorHeartBeat
(FuseServer.cc 117-193).  The heartbeat age is now minus the heartbeat clock
(the nanosecond part is folded into the seconds here).  A shutdown flag or an
age beyond the remove window puts the session on the eviction map, which only
erases it (no message); the protocol-version check afterwards puts it on the
version eviction map, whose entries additionally receive an EVICT message via
Clients::Evict (FuseServer.cc 607-627).  dropLocks fires only on the
transition into OFFLINE. -/
def monitorSweepClient (hbWin offWin remWin minProt now : Nat) (c : ClientRec) :
    SweepOutcome :=
  let delta := now - c.heartbeat.clock
  let o : SweepOutcome :=
    if c.heartbeat.shutdown then
      { state := CState.EVICTED, droppedLocks := false, removed := true
        evictMsg := false }
    else if delta > hbWin then
      if delta > offWin then
        if delta > remWin then
          { state := CState.EVICTED, droppedLocks := false, removed := true
            evictMsg := false }
        else
          { state := CState.OFFLINE
            droppedLocks := decide (c.state ≠ CState.OFFLINE),
            removed := false, evictMsg := false }
      else
        { state := CState.VOLATILE, droppedLocks := false, removed := false
          evictMsg := false }
    else
      { state := CState.ONLINE, droppedLocks := false, removed := false
        evictMsg := false }
  if c.heartbeat.protversion < minProt then
    { o with state := CState.EVICTED, removed := true, evictMsg := true }
  else o

/-- Concrete session records for the C6 evaluations: heartbeat at clock 0,
current protocol version, no shutdown. -/
def hbClient (st : CState) : ClientRec :=
  { heartbeat := { clock := 0, uuid := "u", protversion := 2, shutdown := false },
    state := st }

/-- C6 counterexample: with the spec windows (5/30/120) a session whose
heartbeat is 130 s old (and whose protocol version is current) is removed
from the registry, but no EVICT message is sent: Clients::MonitorHeartBeat
sends EVICT messages only for protocol-version evictions, while the claim
requires exactly one EVICT message for age or shutdown evictions. -/
theorem evict_no_message_counterexample :
    (monitorSweepClient 5 30 120 2 130 (hbClient CState.ONLINE)).removed = true ∧
    (monitorSweepClient 5 30 120 2 130 (hbClient CState.ONLINE)).evictMsg = false := by
  decide

/-- C6 (amended): for a session whose protocol version passes the minimum
check, the sweep computes the state from the heartbeat age delta exactly as
the claim states (ONLINE, VOLATILE, OFFLINE with dropLocks exactly on entry,
EVICTED with removal for age beyond the remove window or shutdown), except
that no EVICT message is sent on age or shutdown eviction; EVICT messages
accompany only protocol-version evictions. -/
theorem monitor_heartbeat_sweep_exact (hbWin offWin remWin minProt now : Nat)
    (c : ClientRec) (hprot : minProt ≤ c.heartbeat.protversion)
    (hwin1 : hbWin ≤ offWin) (hwin2 : offWin ≤ remWin) :
    (c.heartbeat.shutdown = false → now - c.heartbeat.clock ≤ hbWin →
      monitorSweepClient hbWin offWin remWin minProt now c =
        { state := CState.ONLINE, droppedLocks := false, removed := false
          evictMsg := false }) ∧
    (c.heartbeat.shutdown = false → hbWin < now - c.heartbeat.clock →
      now - c.heartbeat.clock ≤ offWin →
      monitorSweepClient hbWin offWin remWin minProt now c =
        { state := CState.VOLATILE, droppedLocks := false, removed := false
          evictMsg := false }) ∧
    (c.heartbeat.shutdown = false → offWin < now - c.heartbeat.clock →
      now - c.heartbeat.clock ≤ remWin →
      monitorSweepClient hbWin offWin remWin minProt now c =
        { state := CState.OFFLINE
          droppedLocks := decide (c.state ≠ CState.OFFLINE),
          removed := false, evictMsg := false }) ∧
    ((c.heartbeat.shutdown = true ∨ remWin < now - c.heartbeat.clock) →
      monitorSweepClient hbWin offWin remWin minProt now c =
        { state := CState.EVICTED, droppedLocks := false, removed := true
          evictMsg := false }) := by
  have hpr : ¬ c.heartbeat.protversion < minProt := by omega
  refine ⟨?_, ?_, ?_, ?_⟩
  · intro hsd hd
    unfold monitorSweepClient
    rw [hsd]
    split_ifs <;>
        first
          | rfl
          | omega
          | (simp_all <;> first | rfl | omega | (split_ifs <;> first | rfl | omega))
  · intro hsd hd1 hd2
    unfold monitorSweepClient
    rw [hsd]
    split_ifs <;>
        first
          | rfl
          | omega
          | (simp_all <;> first | rfl | omega | (split_ifs <;> first | rfl | omega))
  · intro hsd hd1 hd2
    unfold monitorSweepClient
    rw [hsd]
    split_ifs <;>
        first
          | rfl
          | omega
          | (simp_all <;> first | rfl | omega | (split_ifs <;> first | rfl | omega))
  · intro hd
    rcases hd with hsd | hd
    · unfold monitorSweepClient
      rw [hsd]
      split_ifs <;>
        first
          | rfl
          | omega
          | (simp_all <;> first | rfl | omega | (split_ifs <;> first | rfl | omega))
    · rcases Bool.eq_false_or_eq_true c.heartbeat.shutdown with hsd | hsd <;>
        · unfold monitorSweepClient
          rw [hsd]
          split_ifs <;>
        first
          | rfl
          | omega
          | (simp_all <;> first | rfl | omega | (split_ifs <;> first | rfl | omega))

/-- C6 witness: the spec scenario with windows 5/30/120: at t = 10 the state
is VOLATILE; at t = 40 the state is OFFLINE and dropLocks fires on entry (the
previous state was VOLATILE) but does not fire again when the state is
already OFFLINE; at t = 130 the session is removed. -/
theorem monitor_heartbeat_sweep_exact_witness :
    monitorSweepClient 5 30 120 2 10 (hbClient CState.ONLINE) =
      { state := CState.VOLATILE, droppedLocks := false, removed := false
        evictMsg := false } ∧
    monitorSweepClient 5 30 120 2 40 (hbClient CState.VOLATILE) =
      { state := CState.OFFLINE, droppedLocks := true, removed := false
        evictMsg := false } ∧
    monitorSweepClient 5 30 120 2 41 (hbClient CState.OFFLINE) =
      { state := CState.OFFLINE, droppedLocks := false, removed := false
        evictMsg := false } ∧
    monitorSweepClient 5 30 120 2 130 (hbClient CState.OFFLINE) =
      { state := CState.EVICTED, droppedLocks := false, removed := true
        evictMsg := false } := by
  refine ⟨?_, ?_, ?_, ?_⟩
  · exact (monitor_heartbeat_sweep_exact 5 30 120 2 10 (hbClient CState.ONLINE)
      (by decide) (by decide) (by decide)).2.1 rfl (by decide) (by decide)
  · exact (monitor_heartbeat_sweep_exact 5 30 120 2 40 (hbClient CState.VOLATILE)
      (by decide) (by decide) (by decide)).2.2.1 rfl (by decide) (by decide)
  · exact (monitor_heartbeat_sweep_exact 5 30 120 2 41 (hbClient CState.OFFLINE)
      (by decide) (by decide) (by decide)).2.2.1 rfl (by decide) (by decide)
  · exact (monitor_heartbeat_sweep_exact 5 30 120 2 130 (hbClient CState.OFFLINE)
      (by decide) (by decide) (by decide)).2.2.2 (Or.inr (by decide))

/-! ### C7: implicit caps on LS children (HandleMD LS loop) -/

/-- Children loop of the LS handler (FuseServer.cc 2571-2604), reduced to its
cap-issuance effect: the children map (name, inode) is iterated in map order;
file children never get a cap; for a subdirectory child the code issues an
implicit cap (FillContainerCAP with issue_only_one set) when fewer than 16
caps have been issued and the first character of the name is a dot, and then
increments the cap counter.  The in-source comment above this test reads
"skip hidden directories".  Returns the names that received a cap. -/
def lsIssuedCapNames (isFileIno : Nat → Bool) :
    List (String × Nat) → Nat → List String
  | [], _ => []
  | (name, ino) :: rest, nCaps =>
    if isFileIno ino then lsIssuedCapNames isFileIno rest nCaps
    else if nCaps < 16 ∧ name.take 1 = "." then
      name :: lsIssuedCapNames isFileIno rest (nCaps + 1)
    else lsIssuedCapNames isFileIno rest nCaps

/-- Modelled from the spec: the claim says the caps go to at most the first
16 subdirectory children whose names are non-hidden (do not begin with a
dot), and to no other children. -/
def lsClaimCapNames (isFileIno : Nat → Bool) :
    List (String × Nat) → Nat → List String
  | [], _ => []
  | (name, ino) :: rest, nCaps =>
    if isFileIno ino then lsClaimCapNames isFileIno rest nCaps
    else if nCaps < 16 ∧ name.take 1 ≠ "." then
      name :: lsClaimCapNames isFileIno rest (nCaps + 1)
    else lsClaimCapNames isFileIno rest nCaps

/-- C7: evaluating the LS children loop on a listing with one non-hidden
subdirectory (docs) and one hidden subdirectory (.git) shows the code issues
the implicit cap to the hidden child only, while the claim (and the in-source
comment "skip hidden directories") require the non-hidden child only: the
condition at FuseServer.cc 2595 is inverted. -/
theorem ls_caps_issued_to_hidden_only :
    lsIssuedCapNames (fun _ => false) [("docs", 4), (".git", 6)] 0 = [".git"] ∧
    lsClaimCapNames (fun _ => false) [("docs", 4), (".git", 6)] 0 = ["docs"] := by
  constructor <;> rfl

/-! ### C3: Caps::Delete purges the indices, except the time-ordered one -/

theorem mfind_mem {α β : Type} [DecidableEq α] (l : List (α × β)) (a : α) (c : β)
    (h : mfind l a = some c) : (a, c) ∈ l := by
  induction l with
  | nil => cases h
  | cons p rest ih =>
    obtain ⟨k, v⟩ := p
    by_cases hk : k = a
    · subst hk
      rw [mfind_cons, if_pos rfl] at h
      cases h
      exact List.mem_cons_self _ _
    · rw [mfind_cons, if_neg hk] at h
      exact List.mem_cons_of_mem _ (ih h)

theorem mfind_map {α β γ : Type} [DecidableEq α] (l : List (α × β)) (f : β → γ)
    (a : α) :
    mfind (l.map (fun p => (p.1, f p.2))) a = (mfind l a).map f := by
  induction l with
  | nil => rfl
  | cons p rest ih =>
    obtain ⟨k, v⟩ := p
    by_cases hk : k = a <;> simp [hk, ih]

theorem deleteStep_mCaps (i : Nat) (s : CapStore) (a x : String) :
    mfind (CapStore.deleteStep i s a).mCaps x =
      if x = a then none else mfind s.mCaps x := by
  unfold CapStore.deleteStep
  cases hc : mfind s.mCaps a with
  | none =>
    by_cases hx : x = a
    · subst hx; simp [hc]
    · simp [hx]
  | some cap =>
    by_cases hx : x = a
    · subst hx; simp [mfind_merase]
    · simp [mfind_merase, hx]

theorem deleteStep_mTime (i : Nat) (s : CapStore) (a : String) :
    (CapStore.deleteStep i s a).mTimeOrderedCap = s.mTimeOrderedCap := by
  unfold CapStore.deleteStep
  cases mfind s.mCaps a <;> rfl

theorem deleteStep_mInode (i : Nat) (s : CapStore) (a : String) :
    (CapStore.deleteStep i s a).mInodeCaps = s.mInodeCaps := by
  unfold CapStore.deleteStep
  cases mfind s.mCaps a <;> rfl

theorem deleteStep_mClientCaps (i : Nat) (s : CapStore) (a : String) (cl : String) :
    mfind (CapStore.deleteStep i s a).mClientCaps cl =
      (mfind s.mClientCaps cl).map (fun l => serase l a) := by
  unfold CapStore.deleteStep
  cases mfind s.mCaps a <;> exact mfind_map s.mClientCaps (fun l => serase l a) cl

theorem foldDelete_mCaps (i : Nat) (as : List String) :
    ∀ (s : CapStore) (x : String),
      mfind (as.foldl (CapStore.deleteStep i) s).mCaps x =
        if x ∈ as then none else mfind s.mCaps x := by
  induction as with
  | nil => intro s x; simp
  | cons a rest ih =>
    intro s x
    rw [List.foldl_cons, ih, deleteStep_mCaps]
    by_cases hm : x ∈ rest
    · simp [hm]
    · by_cases hx : x = a
      · simp [hx, hm]
      · simp [hx, hm]

theorem foldDelete_mTime (i : Nat) (as : List String) :
    ∀ s : CapStore,
      (as.foldl (CapStore.deleteStep i) s).mTimeOrderedCap = s.mTimeOrderedCap := by
  induction as with
  | nil => intro s; rfl
  | cons a rest ih =>
    intro s
    rw [List.foldl_cons, ih, deleteStep_mTime]

theorem foldDelete_mInode (i : Nat) (as : List String) :
    ∀ s : CapStore,
      (as.foldl (CapStore.deleteStep i) s).mInodeCaps = s.mInodeCaps := by
  induction as with
  | nil => intro s; rfl
  | cons a rest ih =>
    intro s
    rw [List.foldl_cons, ih, deleteStep_mInode]

theorem foldDelete_mClientCaps (i : Nat) (as : List String) :
    ∀ (s : CapStore) (cl : String),
      mfind (as.foldl (CapStore.deleteStep i) s).mClientCaps cl =
        (mfind s.mClientCaps cl).map (fun l => as.foldl serase l) := by
  induction as with
  | nil =>
    intro s cl
    cases h : mfind s.mClientCaps cl <;> simp [h]
  | cons a rest ih =>
    intro s cl
    rw [List.foldl_cons, ih, deleteStep_mClientCaps, Option.map_map]
    rfl

theorem mem_foldl_serase {α : Type} [DecidableEq α] (as : List α) :
    ∀ (l : List α) (x : α), x ∈ as.foldl serase l ↔ x ∈ l ∧ x ∉ as := by
  induction as with
  | nil => intro l x; simp
  | cons a rest ih =>
    intro l x
    rw [List.foldl_cons, ih, mem_serase]
    simp only [List.mem_cons]
    tauto

theorem deleteStep_mClientInoCaps_none (i : Nat) (s : CapStore) (a : String)
    (h : mfind s.mCaps a = none) :
    (CapStore.deleteStep i s a).mClientInoCaps = s.mClientInoCaps := by
  simp only [CapStore.deleteStep, h]

theorem deleteStep_mClientInoCaps_found (i : Nat) (s : CapStore) (a : String)
    (cap : Cap) (inos0 : List Nat) (h : mfind s.mCaps a = some cap)
    (h2 : mfind s.mClientInoCaps cap.clientid = some inos0) :
    (CapStore.deleteStep i s a).mClientInoCaps =
      mset s.mClientInoCaps cap.clientid (serase inos0 i) := by
  simp only [CapStore.deleteStep, h, h2]

theorem deleteStep_mClientInoCaps_nofound (i : Nat) (s : CapStore) (a : String)
    (cap : Cap) (h : mfind s.mCaps a = some cap)
    (h2 : mfind s.mClientInoCaps cap.clientid = none) :
    (CapStore.deleteStep i s a).mClientInoCaps = s.mClientInoCaps := by
  simp only [CapStore.deleteStep, h, h2]

theorem capsDelete_found (s : CapStore) (i : Nat) (as : List String)
    (h : mfind s.mInodeCaps i = some as) :
    s.delete i =
      ({ (as.foldl (CapStore.deleteStep i) s) with
          mInodeCaps := merase (as.foldl (CapStore.deleteStep i) s).mInodeCaps i }, 0) := by
  simp only [CapStore.delete, h]

theorem capsDelete_notfound (s : CapStore) (i : Nat)
    (h : mfind s.mInodeCaps i = none) :
    s.delete i = (s, ENOENT) := by
  simp only [CapStore.delete, h]

/-- Invariant carried through the Caps::Delete loop: every client inode set
still containing the deleted inode is witnessed by a cap that is still in the
primary map and whose auth-id is still pending in the loop. -/
def QInv (i : Nat) (s : CapStore) (pending : List String) : Prop :=
  ∀ cl inos, mfind s.mClientInoCaps cl = some inos → i ∈ inos →
    ∃ a c, mfind s.mCaps a = some c ∧ c.clientid = cl ∧ c.id = i ∧ a ∈ pending

theorem deleteStep_QInv (i : Nat) (s : CapStore) (a : String) (rest : List String)
    (hQ : QInv i s (a :: rest)) : QInv i (CapStore.deleteStep i s a) rest := by
  intro cl inos hfind hmem
  cases hc : mfind s.mCaps a with
  | none =>
    rw [deleteStep_mClientInoCaps_none i s a hc] at hfind
    obtain ⟨a1, c1, h1, h2, h3, h4⟩ := hQ cl inos hfind hmem
    have hane : a1 ≠ a := by
      intro hh
      subst hh
      rw [h1] at hc
      cases hc
    have ha1 : a1 ∈ rest := by
      rcases List.mem_cons.mp h4 with h | h
      · exact absurd h hane
      · exact h
    refine ⟨a1, c1, ?_, h2, h3, ha1⟩
    rw [deleteStep_mCaps, if_neg hane]
    exact h1
  | some cap =>
    cases hci : mfind s.mClientInoCaps cap.clientid with
    | some inos0 =>
      by_cases hcl : cl = cap.clientid
      · subst hcl
        rw [deleteStep_mClientInoCaps_found i s a cap inos0 hc hci,
          mfind_mset_self] at hfind
        cases hfind
        exact absurd ((mem_serase inos0 i i).mp hmem).2 (by simp)
      · rw [deleteStep_mClientInoCaps_found i s a cap inos0 hc hci,
          mfind_mset_ne _ _ _ _ hcl] at hfind
        obtain ⟨a1, c1, h1, h2, h3, h4⟩ := hQ cl inos hfind hmem
        have hane : a1 ≠ a := by
          intro hh
          subst hh
          rw [h1] at hc
          cases hc
          exact hcl h2.symm
        have ha1 : a1 ∈ rest := by
          rcases List.mem_cons.mp h4 with h | h
          · exact absurd h hane
          · exact h
        refine ⟨a1, c1, ?_, h2, h3, ha1⟩
        rw [deleteStep_mCaps, if_neg hane]
        exact h1
    | none =>
      rw [deleteStep_mClientInoCaps_nofound i s a cap hc hci] at hfind
      obtain ⟨a1, c1, h1, h2, h3, h4⟩ := hQ cl inos hfind hmem
      have hane : a1 ≠ a := by
        intro hh
        subst hh
        rw [h1] at hc
        cases hc
        rw [h2] at hci
        rw [hci] at hfind
        cases hfind
      have ha1 : a1 ∈ rest := by
        rcases List.mem_cons.mp h4 with h | h
        · exact absurd h hane
        · exact h
      refine ⟨a1, c1, ?_, h2, h3, ha1⟩
      rw [deleteStep_mCaps, if_neg hane]
      exact h1

theorem foldDelete_clientino (i : Nat) (as : List String) :
    ∀ s : CapStore, QInv i s as →
      ∀ cl inos,
        mfind (as.foldl (CapStore.deleteStep i) s).mClientInoCaps cl = some inos →
        i ∉ inos := by
  induction as with
  | nil =>
    intro s hQ cl inos hfind hmem
    obtain ⟨a1, c1, _, _, _, h4⟩ := hQ cl inos hfind hmem
    cases h4
  | cons a rest ih =>
    intro s hQ cl inos hfind
    rw [List.foldl_cons] at hfind
    exact ih (CapStore.deleteStep i s a) (deleteStep_QInv i s a rest hQ) cl inos hfind

/-- C3 (amended): for a well-indexed cap store, after Caps::Delete(i) no cap
with inode id i remains in the primary map, no auth-id of such a cap remains
in any client cap set, the inode i is gone from every client inode set and
from the inode index, but the time-ordered expiry index is left completely
untouched (its stale entries are only cleaned up lazily elsewhere). -/
theorem capsDelete_purges_indices (s : CapStore) (i : Nat)
    (hwf1 : ∀ a c, mfind s.mCaps a = some c →
        c.authid = a ∧ a ∈ (mfind s.mInodeCaps c.id).getD [])
    (hwf2 : ∀ cl inos, mfind s.mClientInoCaps cl = some inos → ∀ j ∈ inos,
        ∃ a c, mfind s.mCaps a = some c ∧ c.clientid = cl ∧ c.id = j) :
    (∀ a c, mfind (s.delete i).1.mCaps a = some c → c.id ≠ i) ∧
    (∀ cl inos, mfind (s.delete i).1.mClientInoCaps cl = some inos → i ∉ inos) ∧
    (mfind (s.delete i).1.mInodeCaps i = none) ∧
    (∀ cl set, mfind (s.delete i).1.mClientCaps cl = some set → ∀ a ∈ set,
        ∀ c, mfind s.mCaps a = some c → c.id ≠ i) ∧
    (s.delete i).1.mTimeOrderedCap = s.mTimeOrderedCap := by
  cases hidx : mfind s.mInodeCaps i with
  | none =>
    rw [capsDelete_notfound s i hidx]
    refine ⟨?_, ?_, hidx, ?_, rfl⟩
    · intro a c hfind hq
      obtain ⟨_, hmem⟩ := hwf1 a c hfind
      rw [hq, hidx] at hmem
      cases hmem
    · intro cl inos hfind hmem
      obtain ⟨a1, c1, h1, _, h3⟩ := hwf2 cl inos hfind i hmem
      obtain ⟨_, hmem1⟩ := hwf1 a1 c1 h1
      rw [h3, hidx] at hmem1
      cases hmem1
    · intro cl st hfind a _ c hc hq
      obtain ⟨_, hmem⟩ := hwf1 a c hc
      rw [hq, hidx] at hmem
      cases hmem
  | some as =>
    simp only [capsDelete_found s i as hidx]
    refine ⟨?_, ?_, ?_, ?_, ?_⟩
    · intro a c hfind hq
      rw [foldDelete_mCaps] at hfind
      by_cases hm : a ∈ as
      · rw [if_pos hm] at hfind
        cases hfind
      · rw [if_neg hm] at hfind
        obtain ⟨_, hmem⟩ := hwf1 a c hfind
        rw [hq, hidx] at hmem
        exact hm hmem
    · intro cl inos hfind
      refine foldDelete_clientino i as s ?_ cl inos hfind
      intro cl1 inos1 hf1 hm1
      obtain ⟨a1, c1, h1, h2, h3⟩ := hwf2 cl1 inos1 hf1 i hm1
      obtain ⟨h4, h5⟩ := hwf1 a1 c1 h1
      rw [h3, hidx] at h5
      exact ⟨a1, c1, h1, h2, h3, h5⟩
    · rw [foldDelete_mInode, mfind_merase, if_pos rfl]
    · intro cl st hfind a ha c hc hq
      rw [foldDelete_mClientCaps] at hfind
      cases hf0 : mfind s.mClientCaps cl with
      | none =>
        rw [hf0] at hfind
        cases hfind
      | some st0 =>
        rw [hf0] at hfind
        cases hfind
        have := (mem_foldl_serase as st0 a).mp ha
        obtain ⟨_, hmem⟩ := hwf1 a c hc
        rw [hq, hidx] at hmem
        exact this.2 hmem
    · exact foldDelete_mTime i as s

/-- Concrete caps and store for the C3 evaluations: two caps on inode 5 from
two clients, one cap on inode 7. -/
def capD1 : Cap :=
  { authid := "a1", id := 5, clientid := "c1", clientuuid := "u1",
    uid := 0, gid := 0, mode := 15, vtime := 100 }

def capD2 : Cap :=
  { authid := "a2", id := 5, clientid := "c2", clientuuid := "u2",
    uid := 0, gid := 0, mode := 15, vtime := 200 }

def capD3 : Cap :=
  { authid := "a3", id := 7, clientid := "c1", clientuuid := "u1",
    uid := 0, gid := 0, mode := 15, vtime := 300 }

def storeDel : CapStore :=
  ((CapStore.empty.store capD1).store capD2).store capD3

/-- C3 counterexample: after Caps::Delete(5) on the concrete store the caps
on inode 5 are gone from the primary map, yet their entries (100, a1) and
(200, a2) are still present in the time-ordered expiry index, so a cap with
inode id 5 does remain in that index, contrary to the claim. -/
theorem capsDelete_time_index_counterexample :
    mfind storeDel.mCaps "a1" = some capD1 ∧ capD1.id = 5 ∧
    mfind (storeDel.delete 5).1.mCaps "a1" = none ∧
    (storeDel.delete 5).1.mTimeOrderedCap = [(100, "a1"), (200, "a2"), (300, "a3")] := by
  refine ⟨rfl, rfl, ?_, rfl⟩
  decide

/-- C3 witness: the amended theorem applied to the concrete store. -/
theorem capsDelete_purges_indices_witness :
    (storeDel.delete 5).1.mTimeOrderedCap = storeDel.mTimeOrderedCap ∧
    mfind (storeDel.delete 5).1.mInodeCaps 5 = none := by
  have h := capsDelete_purges_indices storeDel 5
    (by
      intro a c hfind
      have hm := mfind_mem _ _ _ hfind
      have hm2 : (a, c) ∈ [("a1", capD1), ("a2", capD2), ("a3", capD3)] := hm
      simp only [List.mem_cons, List.not_mem_nil, or_false, Prod.mk.injEq] at hm2
      rcases hm2 with ⟨rfl, rfl⟩ | ⟨rfl, rfl⟩ | ⟨rfl, rfl⟩ <;> exact ⟨rfl, by decide⟩)
    (by
      intro cl inos hfind j hj
      have hm := mfind_mem _ _ _ hfind
      have hm2 : (cl, inos) ∈ [("c1", [5, 7]), ("c2", [5])] := hm
      simp only [List.mem_cons, List.not_mem_nil, or_false, Prod.mk.injEq] at hm2
      rcases hm2 with ⟨rfl, rfl⟩ | ⟨rfl, rfl⟩
      · have hj2 : j ∈ [5, 7] := hj
        simp only [List.mem_cons, List.not_mem_nil, or_false] at hj2
        rcases hj2 with rfl | rfl
        · exact ⟨"a1", capD1, rfl, rfl, rfl⟩
        · exact ⟨"a3", capD3, rfl, rfl, rfl⟩
      · have hj2 : j ∈ [5] := hj
        simp only [List.mem_cons, List.not_mem_nil, or_false] at hj2
        rcases hj2 with rfl
        exact ⟨"a2", capD2, rfl, rfl, rfl⟩)
  exact ⟨h.2.2.2.2, h.2.2.1⟩

/-! ### Namespace model for the SET and DELETE paths of HandleMD -/

/-- Modelled from the spec: file ids and container ids live in disjoint inode
ranges with total conversions FidToInode / InodeToFid and a predicate
IsFileInode (common/FileId.hh is not under src/).  The file-inode range is
the multiples of 2^28 as in the callers. -/
def fidToInode (fid : Nat) : Nat := fid * 268435456

/-- Modelled from the spec: inverse of fidToInode on the file-inode range. -/
def inodeToFid (ino : Nat) : Nat := ino / 268435456

/-- Modelled from the spec: recognizer of the file-inode range. -/
def isFileInode (ino : Nat) : Bool := decide (268435456 ≤ ino)

/-- S_ISGID bit (POSIX). -/
def S_ISGID : Nat := 1024

/-- Modelled from the spec: the atomic-upload name prefix that is forbidden
for file and directory names (EOS_COMMON_PATH_ATOMIC_FILE_PREFIX from
common/Path.hh, which is not under src/). -/
def atomicPfx : String := ".sys.a#."

/-- The recycle-bin attribute Recycle::gRecyclingAttribute checked by the
DELETE path (mgm/Recycle.hh is not under src/; the spec names sys.recycle). -/
def recycleAttr : String := "sys.recycle"

/-- Container metadata (IContainerMD) as used by the handlers: parent id,
name, the name-to-id maps of subcontainers and files, ownership, mode, times
and extended attributes.  Attribute values are stored as the integers their
decimal strings denote (std::to_string / std::stol round-trip). -/
structure ContMD where
  parentId : Nat
  name : String
  subconts : List (String × Nat)
  cfiles : List (String × Nat)
  uid : Nat
  gid : Nat
  mode : Nat
  ctime : Nat
  mtime : Nat
  attrs : List (String × Nat)
  deriving Repr, DecidableEq

/-- File metadata (IFileMD); attribute values as for ContMD. -/
structure FileMD where
  contId : Nat
  name : String
  size : Nat
  uid : Nat
  gid : Nat
  flags : Nat
  ctime : Nat
  mtime : Nat
  attrs : List (String × Nat)
  deriving Repr, DecidableEq

/-- The namespace view: containers by container id, files by file id, and
the id allocators of the directory and file services. -/
structure NSpace where
  conts : List (Nat × ContMD)
  files : List (Nat × FileMD)
  nextCid : Nat
  nextFid : Nat
  deriving Repr, DecidableEq

def NSpace.setCont (ns : NSpace) (cid : Nat) (c : ContMD) : NSpace :=
  { ns with conts := mset ns.conts cid c }

def NSpace.setFile (ns : NSpace) (fid : Nat) (f : FileMD) : NSpace :=
  { ns with files := mset ns.files fid f }

/-- The md request fields used by the SET and DELETE paths of
FuseServer::HandleMD.  isDir stands for S_ISDIR(md.mode()) and exclusive for
md.type() == EXCL.  The hardlink trigger (a target string of the form
////hlnk<ino>, tested with strncmp and parsed with atoll in the source) is
modelled as the parsed optional target inode. -/
structure MDReq where
  md_ino : Nat
  md_pino : Nat
  name : String
  authid : String
  implied_authid : String
  mv_authid : String
  reqid : Nat
  uid : Nat
  gid : Nat
  mode : Nat
  isDir : Bool
  exclusive : Bool
  ctime : Nat
  mtime : Nat
  btime : Nat
  pmtime : Nat
  size : Nat
  attrs : List (String × Nat)
  targetHlnk : Option Nat
  clientid : String
  clientuuid : String
  deriving Repr, DecidableEq

inductive AckCode
  | OK
  | PERMANENT_FAILURE
  deriving Repr, DecidableEq

/-- The ack portion of an eos::fusex::response serialized into the reply. -/
structure Ack where
  code : AckCode
  err_no : Nat
  err_msg : String
  transactionid : Nat
  md_ino : Nat
  deriving Repr, DecidableEq

/-- Broadcasts queued by a handler after the reply is serialized. -/
inductive BCast
  | release (authid : String)
  | mdUpdate (ino pino : Nat)
  | deletion (pino : Nat) (name : String)
  deriving Repr, DecidableEq

/-- Result of one handler call: the HandleMD return code, the ack serialized
into the response (if any), the namespace and cap store after the call, the
broadcasts emitted, and the inodes passed to Caps::Delete. -/
structure HandleResult where
  retc : Nat
  response : Option Ack
  ns : NSpace
  bcasts : List BCast
  capDeletes : List Nat
  caps : CapStore
  deriving Repr, DecidableEq

/-- Outcome of the try block of a handler: a plain return of an errno (no
response serialized), an eos::MDException caught by the handler (turned into
a PERMANENT_FAILURE ack) and the state as mutated so far, or success. -/
inductive TryOut (α : Type)
  | bare (retc : Nat) (ns : NSpace) (caps : CapStore)
  | exc (err : Nat) (msg : String) (ns : NSpace) (caps : CapStore)
  | okk (a : α) (ns : NSpace) (caps : CapStore)
  deriving Repr, DecidableEq

inductive SetOp
  | opCREATE
  | opUPDATE
  | opRENAME
  | opMOVE
  deriving Repr, DecidableEq

/-- FuseServer::ValidatePERM (FuseServer.cc 2322-2446): look up the parent
container of the request (a failing lookup returns false) and evaluate POSIX
access bits and the ACL for the requested mode string.  The evaluation itself
(IContainerMD::access and mgm::Acl live outside src/) is abstracted as the
oracle perm : container id → Bool. -/
def validatePERM (perm : Nat → Bool) (ns : NSpace) (pino : Nat) : Bool :=
  match mfind ns.conts pino with
  | some _ => perm pino
  | none => false

/-- Cap check at the head of the SET and DELETE paths (FuseServer.cc
2696-2708 and 3422-3435): ValidateCAP for the required mode, with a fallback
through ValidatePERM only when the cap failure was ENOENT, EINVAL or
ETIMEDOUT; a cap mode shortfall (EPERM) does not fall back. -/
def capOrPermOK (s : CapStore) (perm : Nat → Bool) (ns : NSpace) (md : MDReq)
    (M now : Nat) : Bool :=
  match validateCAP s md.authid md.md_ino md.md_pino M now with
  | Except.ok _ => true
  | Except.error e =>
    if e = ENOENT ∨ e = EINVAL ∨ e = ETIMEDOUT then
      validatePERM perm ns md.md_pino
    else false

/-- FuseServer::Caps::Imply (FuseServer.cc 904-944): copy the cap stored
under authid into a new cap pinned to md_ino under implied_authid, with a
fresh vtime of now + leasetime (default 300); no change when the source cap
is unknown or the implied auth-id is empty. -/
def capsImply (s : CapStore) (mdIno : Nat) (authid implied : String)
    (now leasetime : Nat) : CapStore :=
  if (s.get authid).id = 0 ∨ implied = "" then s
  else
    { mCaps := mset s.mCaps implied
        { s.get authid with
          id := mdIno
          authid := implied
          vtime := now + (if leasetime ≠ 0 then leasetime else 300) }
      mTimeOrderedCap := s.mTimeOrderedCap ++
        [(now + (if leasetime ≠ 0 then leasetime else 300), implied)]
      mClientCaps := mset s.mClientCaps (s.get authid).clientid
        (sinsert ((mfind s.mClientCaps (s.get authid).clientid).getD []) implied)
      mClientInoCaps := mset s.mClientInoCaps (s.get authid).clientid
        (sinsert ((mfind s.mClientInoCaps (s.get authid).clientid).getD []) mdIno)
      mInodeCaps := mset s.mInodeCaps mdIno
        (sinsert ((mfind s.mInodeCaps mdIno).getD []) implied) }

/-- The xattr application loop of the directory SET path (FuseServer.cc
2874-2879): only non-sys keys, or the key sys.eos.btime, are applied. -/
def setDirAttrs (attrs0 : List (String × Nat)) (mdattrs : List (String × Nat)) :
    List (String × Nat) :=
  mdattrs.foldl
    (fun acc kv =>
      if ¬(kv.1.take 3 = "sys") ∨ kv.1 = "sys.eos.btime" then mset acc kv.1 kv.2
      else acc)
    attrs0

/-- The removed-xattr detection loop of the directory SET path (FuseServer.cc
2881-2895): iterate a snapshot of the container attributes and remove every
key the request no longer carries. -/
def removeMissingAttrs (cattrs : List (String × Nat))
    (mdattrs : List (String × Nat)) : List (String × Nat) :=
  cattrs.foldl
    (fun acc kv => if mfind mdattrs kv.1 = none then merase acc kv.1 else acc)
    cattrs

/-- Common field application of the directory SET path (FuseServer.cc
2860-2902): name, ownership, mode (with inherited S_ISGID), times, the xattr
loops, and the birth time attribute on creation. -/
def setDirApplyFields (cmd : ContMD) (md : MDReq) (op : SetOp) (sgid : Nat) :
    ContMD :=
  let a1 := setDirAttrs cmd.attrs md.attrs
  let a2 :=
    if op ≠ SetOp.opCREATE ∧ a1.length ≠ md.attrs.length then
      removeMissingAttrs a1 md.attrs
    else a1
  let a3 := if op = SetOp.opCREATE then mset a2 "sys.eos.btime" md.btime else a2
  { cmd with
    name := md.name
    uid := md.uid
    gid := md.gid
    mode := md.mode ||| sgid
    ctime := md.ctime
    mtime := md.mtime
    attrs := a3 }

/-- The try block of the S_ISDIR branch of the SET handler (FuseServer.cc
2732-2916).  The result value is the container id reported in the ack and
the operation class that selects the broadcasts. -/
def setDirBody (s : CapStore) (perm : Nat → Bool) (now leasetime : Nat)
    (ns : NSpace) (md : MDReq) : TryOut (Nat × SetOp) :=
  if md.md_ino ≠ 0 ∧ md.exclusive then TryOut.bare EEXIST ns s
  else if md.md_ino ≠ 0 then
    if md.implied_authid ≠ "" then TryOut.bare EEXIST ns s
    else
      match mfind ns.conts md.md_ino with
      | none => TryOut.exc ENOENT "No such file or directory" ns s
      | some cmd =>
        match mfind ns.conts md.md_pino with
        | none => TryOut.exc ENOENT "No such file or directory" ns s
        | some pcmd =>
          if cmd.parentId ≠ md.md_pino then
            -- directory move: re-check write permission on the source parent
            if ¬ validatePERM perm ns cmd.parentId then TryOut.bare EPERM ns s
            else
              match mfind ns.conts cmd.parentId with
              | none => TryOut.exc ENOENT "No such file or directory" ns s
              | some cpcmd =>
                let ns1 := ns.setCont cmd.parentId
                  { cpcmd with subconts := merase cpcmd.subconts cmd.name }
                -- if the move target exists it must be empty and is removed
                match mfind pcmd.subconts md.name with
                | some tid =>
                  match mfind ns1.conts tid with
                  | some tcmd =>
                    if tcmd.subconts.length + tcmd.cfiles.length ≠ 0 then
                      TryOut.bare ENOTEMPTY ns1 s
                    else
                      let ns2 := { ns1 with conts := merase ns1.conts tid }
                      let pcmd2 := { pcmd with
                        subconts := mset (merase pcmd.subconts md.name) md.name md.md_ino }
                      let ns3 := ns2.setCont md.md_pino pcmd2
                      let sgid := if pcmd2.mode &&& S_ISGID ≠ 0 then S_ISGID else 0
                      let cmd2 := setDirApplyFields
                        { cmd with name := md.name, parentId := md.md_pino } md
                        SetOp.opMOVE sgid
                      let pcmd3 :=
                        if md.pmtime ≠ 0 then { pcmd2 with mtime := md.pmtime } else pcmd2
                      let ns4 := (ns3.setCont md.md_pino pcmd3).setCont md.md_ino cmd2
                      TryOut.okk (md.md_ino, SetOp.opMOVE) ns4 s
                  | none =>
                    let pcmd2 := { pcmd with
                      subconts := mset pcmd.subconts md.name md.md_ino }
                    let ns3 := ns1.setCont md.md_pino pcmd2
                    let sgid := if pcmd2.mode &&& S_ISGID ≠ 0 then S_ISGID else 0
                    let cmd2 := setDirApplyFields
                      { cmd with name := md.name, parentId := md.md_pino } md
                      SetOp.opMOVE sgid
                    let pcmd3 :=
                      if md.pmtime ≠ 0 then { pcmd2 with mtime := md.pmtime } else pcmd2
                    let ns4 := (ns3.setCont md.md_pino pcmd3).setCont md.md_ino cmd2
                    TryOut.okk (md.md_ino, SetOp.opMOVE) ns4 s
                | none =>
                  let pcmd2 := { pcmd with
                    subconts := mset pcmd.subconts md.name md.md_ino }
                  let ns3 := ns1.setCont md.md_pino pcmd2
                  let sgid := if pcmd2.mode &&& S_ISGID ≠ 0 then S_ISGID else 0
                  let cmd2 := setDirApplyFields
                    { cmd with name := md.name, parentId := md.md_pino } md
                    SetOp.opMOVE sgid
                  let pcmd3 :=
                    if md.pmtime ≠ 0 then { pcmd2 with mtime := md.pmtime } else pcmd2
                  let ns4 := (ns3.setCont md.md_pino pcmd3).setCont md.md_ino cmd2
                  TryOut.okk (md.md_ino, SetOp.opMOVE) ns4 s
          else
            -- update, or rename when the name changed
            let op := if cmd.name ≠ md.name then SetOp.opRENAME else SetOp.opUPDATE
            let pcmd2 :=
              if cmd.name ≠ md.name then
                { pcmd with
                  subconts := mset (merase pcmd.subconts cmd.name) md.name md.md_ino }
              else pcmd
            let sgid := if pcmd2.mode &&& S_ISGID ≠ 0 then S_ISGID else 0
            let cmd2 := setDirApplyFields cmd md op sgid
            let pcmd3 :=
              if op ≠ SetOp.opUPDATE ∧ md.pmtime ≠ 0 then
                { pcmd2 with mtime := md.pmtime }
              else pcmd2
            let ns2 := ((ns.setCont md.md_pino pcmd3).setCont md.md_ino cmd2)
            TryOut.okk (md.md_ino, op) ns2 s
  else
    -- directory creation
    match mfind ns.conts md.md_pino with
    | none => TryOut.exc ENOENT "No such file or directory" ns s
    | some pcmd =>
      if md.name.take atomicPfx.length = atomicPfx then TryOut.bare EPERM ns s
      else if md.exclusive ∧ (mfind pcmd.subconts md.name).isSome then
        TryOut.bare EEXIST ns s
      else
        let cid := ns.nextCid
        let s1 := capsImply s cid md.authid md.implied_authid now leasetime
        let cmd0 : ContMD :=
          { parentId := md.md_pino, name := md.name, subconts := [], cfiles := [],
            uid := 0, gid := 0, mode := 0, ctime := 0, mtime := 0
            attrs := pcmd.attrs }
        let cmd2 := setDirApplyFields cmd0 md SetOp.opCREATE S_ISGID
        let pcmd2 := { pcmd with subconts := mset pcmd.subconts md.name cid }
        let pcmd3 := if md.pmtime ≠ 0 then { pcmd2 with mtime := md.pmtime } else pcmd2
        let ns2 :=
          { (ns.setCont md.md_pino pcmd3).setCont cid cmd2 with
            nextCid := ns.nextCid + 1 }
        TryOut.okk (cid, SetOp.opCREATE) ns2 s1

/-- The S_ISDIR branch of the SET handler around its try block (FuseServer.cc
2721-2966): exceptions become PERMANENT_FAILURE acks carrying the exception
errno, message and the request transactionid; plain returns leave the
response empty; success produces an OK ack and queues a cap release
broadcast, twice for a move (once under mv_authid for the source parent
subscribers). -/
def handleSetDir (s : CapStore) (perm : Nat → Bool) (now leasetime : Nat)
    (ns : NSpace) (md : MDReq) : HandleResult :=
  match setDirBody s perm now leasetime ns md with
  | TryOut.bare rc ns1 s1 =>
    { retc := rc, response := none, ns := ns1, bcasts := [], capDeletes := [],
      caps := s1 }
  | TryOut.exc e msg ns1 s1 =>
    { retc := 0
      response := some
        { code := AckCode.PERMANENT_FAILURE, err_no := e, err_msg := msg
          transactionid := md.reqid, md_ino := 0 },
      ns := ns1, bcasts := [], capDeletes := [], caps := s1 }
  | TryOut.okk (cid, op) ns1 s1 =>
    { retc := 0
      response := some
        { code := AckCode.OK, err_no := 0, err_msg := "",
          transactionid := md.reqid, md_ino := cid },
      ns := ns1
      bcasts :=
        match op with
        | SetOp.opMOVE => [BCast.release md.mv_authid, BCast.release md.authid]
        | _ => [BCast.release md.authid],
      capDeletes := [], caps := s1 }

/-- Common tail of the regular-file SET path (FuseServer.cc 3185-3283):
apply name, ownership, size, the 9 permission bits, times, clear and re-apply
the request xattrs plus the birth time attribute, store the file, and store
the parent with a fresh mtime for every operation except a pure update.  The
ack carries ackIno and a single MD broadcast on (ackIno, md_pino) is queued. -/
def setFileApplyCommon (ns : NSpace) (md : MDReq) (op : SetOp) (fid : Nat)
    (fmd : FileMD) (pcmd : ContMD) (ackIno : Nat) (s : CapStore) :
    TryOut (Nat × List BCast) :=
  let fmd2 := { fmd with
    name := md.name
    uid := md.uid
    gid := md.gid
    size := md.size
    flags := md.mode &&& 511
    ctime := md.ctime
    mtime := md.mtime
    attrs := mset (md.attrs.foldl (fun acc kv => mset acc kv.1 kv.2) [])
      "sys.eos.btime" md.btime }
  let ns1 := ns.setFile fid fmd2
  let ns2 :=
    if op ≠ SetOp.opUPDATE then ns1.setCont md.md_pino { pcmd with mtime := md.mtime }
    else ns1
  TryOut.okk (ackIno, [BCast.mdUpdate ackIno md.md_pino]) ns2 s

/-- The try block of the S_ISREG / S_ISFIFO branch of the SET handler
(FuseServer.cc 2983-3283): update / rename / move of an existing file, the
hardlink-creation branch, or file creation.  Unlike the directory branch, a
file move performs no permission re-check on the source parent.  Quota
(Policy::GetLayoutAndSpace and Quota::QuotaBySpace are outside src/) is
abstracted by the quotaDeny flag that triggers the EDQUOT return on
creation. -/
def setFileBody (s : CapStore) (quotaDeny : Bool) (ns : NSpace) (md : MDReq) :
    TryOut (Nat × List BCast) :=
  match mfind ns.conts md.md_pino with
  | none => TryOut.exc ENOENT "No such file or directory" ns s
  | some pcmd =>
    if md.md_ino ≠ 0 ∧ md.exclusive then TryOut.bare EEXIST ns s
    else if md.md_ino ≠ 0 then
      match mfind ns.files (inodeToFid md.md_ino) with
      | none => TryOut.exc ENOENT "No such file or directory" ns s
      | some fmd =>
        if fmd.contId ≠ md.md_pino then
          match mfind ns.conts fmd.contId with
          | none => TryOut.exc ENOENT "No such file or directory" ns s
          | some cpcmd =>
            let ns1 := ns.setCont fmd.contId
              { cpcmd with cfiles := merase cpcmd.cfiles fmd.name }
            let pcmdA :=
              match mfind pcmd.cfiles md.name with
              | some _ => { pcmd with cfiles := merase pcmd.cfiles md.name }
              | none => pcmd
            let ns2 :=
              match mfind pcmd.cfiles md.name with
              | some ofid => { ns1 with files := merase ns1.files ofid }
              | none => ns1
            let pcmdB := { pcmdA with
              cfiles := mset pcmdA.cfiles md.name (inodeToFid md.md_ino) }
            let ns3 := ns2.setCont md.md_pino pcmdB
            setFileApplyCommon ns3 md SetOp.opMOVE (inodeToFid md.md_ino)
              { fmd with name := md.name, contId := md.md_pino } pcmdB md.md_ino s
        else if fmd.name ≠ md.name then
          let pcmdA :=
            match mfind pcmd.cfiles md.name with
            | some _ => { pcmd with cfiles := merase pcmd.cfiles md.name }
            | none => pcmd
          let ns2 :=
            match mfind pcmd.cfiles md.name with
            | some ofid => { ns with files := merase ns.files ofid }
            | none => ns
          let pcmdB := { pcmdA with
            cfiles := mset (merase pcmdA.cfiles fmd.name) md.name (inodeToFid md.md_ino) }
          let ns3 := ns2.setCont md.md_pino pcmdB
          setFileApplyCommon ns3 md SetOp.opRENAME (inodeToFid md.md_ino)
            { fmd with name := md.name } pcmdB md.md_ino s
        else
          setFileApplyCommon ns md SetOp.opUPDATE (inodeToFid md.md_ino) fmd pcmd
            md.md_ino s
    else
      match md.targetHlnk with
      | some tgt =>
        -- hardlink creation (FuseServer.cc 3076-3129); returns before the
        -- common tail
        if (mfind pcmd.subconts md.name).isSome then TryOut.bare EEXIST ns s
        else
          match mfind ns.files (inodeToFid tgt) with
          | none => TryOut.exc ENOENT "No such file or directory" ns s
          | some fmd =>
            let nlink :=
              match mfind fmd.attrs k_nlink with
              | some k => k + 1
              | none => 1
            let ns1 := ns.setFile (inodeToFid tgt)
              { fmd with attrs := mset fmd.attrs k_nlink nlink }
            let gfid := ns.nextFid
            let gmd : FileMD :=
              { contId := md.md_pino, name := md.name, size := 0, uid := 0
                gid := 0, flags := 0, ctime := 0, mtime := 0
                attrs := [(k_mdino, tgt)] }
            let pcmdB := { pcmd with cfiles := mset pcmd.cfiles md.name gfid }
            let ns2 :=
              { (ns1.setFile gfid gmd).setCont md.md_pino pcmdB with
                nextFid := ns.nextFid + 1 }
            TryOut.okk (fidToInode gfid, [BCast.mdUpdate tgt md.md_pino]) ns2 s
      | none =>
        -- file creation
        if md.name.take atomicPfx.length = atomicPfx then TryOut.bare EPERM ns s
        else if quotaDeny then TryOut.bare EDQUOT ns s
        else
          let fid := ns.nextFid
          let fmd0 : FileMD :=
            { contId := md.md_pino, name := md.name, size := 0, uid := 0
              gid := 0, flags := 0, ctime := 0, mtime := 0, attrs := [] }
          let pcmdB := { pcmd with cfiles := mset pcmd.cfiles md.name fid }
          let ns1 := { ns.setCont md.md_pino pcmdB with nextFid := ns.nextFid + 1 }
          setFileApplyCommon ns1 md SetOp.opCREATE fid fmd0 pcmdB (fidToInode fid) s

/-- The S_ISREG / S_ISFIFO branch of the SET handler around its try block. -/
def handleSetFile (s : CapStore) (quotaDeny : Bool) (ns : NSpace) (md : MDReq) :
    HandleResult :=
  match setFileBody s quotaDeny ns md with
  | TryOut.bare rc ns1 s1 =>
    { retc := rc, response := none, ns := ns1, bcasts := [], capDeletes := [],
      caps := s1 }
  | TryOut.exc e msg ns1 s1 =>
    { retc := 0
      response := some
        { code := AckCode.PERMANENT_FAILURE, err_no := e, err_msg := msg
          transactionid := md.reqid, md_ino := 0 },
      ns := ns1, bcasts := [], capDeletes := [], caps := s1 }
  | TryOut.okk (ino, bc) ns1 s1 =>
    { retc := 0
      response := some
        { code := AckCode.OK, err_no := 0, err_msg := "",
          transactionid := md.reqid, md_ino := ino },
      ns := ns1, bcasts := bc, capDeletes := [], caps := s1 }

/-- The SET operation of FuseServer::HandleMD (FuseServer.cc 2682-3417):
entry cap validation with ACL fallback, then the directory or regular-file
branch (requests are classified by md.mode in the source; the symlink/fifo
branch at 3301-3416 is not exercised by the claims below).  A failed
validation returns the bare code EPERM with no response serialized. -/
def handleSet (s : CapStore) (perm : Nat → Bool) (quotaDeny : Bool)
    (now leasetime : Nat) (ns : NSpace) (md : MDReq) : HandleResult :=
  if capOrPermOK s perm ns md (W_OK ||| SA_OK) now then
    if md.isDir then handleSetDir s perm now leasetime ns md
    else handleSetFile s quotaDeny ns md
  else
    { retc := EPERM, response := none, ns := ns, bcasts := [], capDeletes := [],
      caps := s }

/-- Hex rendering of a file id for the hardlink shelter name
...eos.ino...<fid-hex> (snprintf %lx in the source). -/
def hexOfNat (n : Nat) : String := String.mk (Nat.toDigits 16 n)

/-- The try block of the DELETE handler (FuseServer.cc 3437-3623): empty-check
and removal of a directory, the recycle-bin path, and the hardlink-aware file
removal.  The result carries the broadcasts and the inodes passed to
Caps::Delete. -/
def deleteBody (s : CapStore) (ns : NSpace) (md : MDReq) :
    TryOut (List BCast × List Nat) :=
  match mfind ns.conts md.md_pino with
  | none => TryOut.exc ENOENT "No such file or directory" ns s
  | some pcmd0 =>
    if md.isDir then
      match mfind ns.conts md.md_ino with
      | none => TryOut.exc ENOENT "No such file or directory" ns s
      | some cmd =>
        let pcmd := { pcmd0 with mtime := md.mtime }
        let ns0 := ns.setCont md.md_pino pcmd
        if cmd.subconts.length + cmd.cfiles.length ≠ 0 then
          -- the source builds the same PERMANENT_FAILURE ack inline here and
          -- returns 0 (FuseServer.cc 3463-3473)
          TryOut.exc ENOTEMPTY "directory not empty" ns0 s
        else
          let pcmd2 := { pcmd with subconts := merase pcmd.subconts cmd.name }
          let nsA := ns0.setCont md.md_pino pcmd2
          let ns1 := { nsA with conts := merase nsA.conts md.md_ino }
          TryOut.okk
            ([BCast.release md.authid, BCast.deletion md.md_pino cmd.name],
              [md.md_ino]) ns1 s
    else
      match mfind ns.files (inodeToFid md.md_ino) with
      | none => TryOut.exc ENOENT "No such file or directory" ns s
      | some fmd =>
        let pcmd := { pcmd0 with mtime := md.mtime }
        let ns0 := ns.setCont md.md_pino pcmd
        if (mfind pcmd.attrs recycleAttr).isSome ∧ mfind fmd.attrs k_mdino = none ∧
            mfind fmd.attrs k_nlink = none then
          -- Modelled from the spec: gOFS->_rem (outside src/) removes the
          -- file through the recycle bin
          let pcmd2 := { pcmd with cfiles := merase pcmd.cfiles fmd.name }
          let nsA := ns0.setCont md.md_pino pcmd2
          let ns1 := { nsA with files := merase nsA.files (inodeToFid md.md_ino) }
          TryOut.okk
            ([BCast.release md.authid, BCast.deletion md.md_pino md.name],
              [md.md_ino]) ns1 s
        else
          match mfind fmd.attrs k_mdino with
          | some tgt =>
            -- this is a hard link entry: update the target reference count
            match mfind ns0.files (inodeToFid tgt) with
            | none => TryOut.exc ENOENT "No such file or directory" ns0 s
            | some gmd =>
              match mfind gmd.attrs k_nlink with
              | none =>
                -- std::stol(getAttribute(k_nlink)): the missing attribute
                -- lookup throws
                TryOut.exc ENOENT "Attribute not found" ns0 s
              | some k =>
                let nl : Int := (k : Int) - 1
                let st1 :=
                  if 0 ≤ nl then
                    (ns0.setFile (inodeToFid tgt)
                      { gmd with attrs := mset gmd.attrs k_nlink nl.toNat },
                      pcmd)
                  else
                    -- nlink went negative: unlink the target file as well
                    ((ns0.setCont md.md_pino
                        { pcmd with cfiles := merase pcmd.cfiles gmd.name }).setFile
                      (inodeToFid tgt) { gmd with contId := 0 },
                      { pcmd with cfiles := merase pcmd.cfiles gmd.name })
                let pcmd2 := { st1.2 with cfiles := merase st1.2.cfiles fmd.name }
                let nsB := (st1.1.setCont md.md_pino pcmd2).setFile
                  (inodeToFid md.md_ino) { fmd with contId := 0 }
                TryOut.okk
                  ([BCast.release md.authid, BCast.deletion md.md_pino md.name],
                    [md.md_ino]) nsB s
          | none =>
            match mfind fmd.attrs k_nlink with
            | some k =>
              let nl : Int := (k : Int) - 1
              if 0 ≤ nl then
                -- hard links exist: shelter the inode under ...eos.ino...<fid>
                let tmpName := "...eos.ino..." ++ hexOfNat (inodeToFid md.md_ino)
                let fmd2 := { fmd with
                  name := tmpName
                  attrs := mset fmd.attrs k_nlink nl.toNat }
                let pcmd2 := { pcmd with
                  cfiles := mset (merase (merase pcmd.cfiles tmpName) fmd.name)
                    tmpName (inodeToFid md.md_ino) }
                let nsB := (ns0.setCont md.md_pino pcmd2).setFile
                  (inodeToFid md.md_ino) fmd2
                TryOut.okk
                  ([BCast.release md.authid, BCast.deletion md.md_pino md.name],
                    [md.md_ino]) nsB s
              else
                let pcmd2 := { pcmd with cfiles := merase pcmd.cfiles fmd.name }
                let nsB := (ns0.setCont md.md_pino pcmd2).setFile
                  (inodeToFid md.md_ino) { fmd with contId := 0 }
                TryOut.okk
                  ([BCast.release md.authid, BCast.deletion md.md_pino md.name],
                    [md.md_ino]) nsB s
            | none =>
              let pcmd2 := { pcmd with cfiles := merase pcmd.cfiles fmd.name }
              let nsB := (ns0.setCont md.md_pino pcmd2).setFile
                (inodeToFid md.md_ino) { fmd with contId := 0 }
              TryOut.okk
                ([BCast.release md.authid, BCast.deletion md.md_pino md.name],
                  [md.md_ino]) nsB s

/-- The DELETE operation of FuseServer::HandleMD (FuseServer.cc 3419-3624):
entry cap validation for the D mode with ACL fallback, then the try block;
exceptions become PERMANENT_FAILURE acks with the exception errno and the
request transactionid. -/
def handleDelete (s : CapStore) (perm : Nat → Bool) (now : Nat) (ns : NSpace)
    (md : MDReq) : HandleResult :=
  if capOrPermOK s perm ns md D_OK now then
    match deleteBody s ns md with
    | TryOut.bare rc ns1 s1 =>
      { retc := rc, response := none, ns := ns1, bcasts := [], capDeletes := [],
        caps := s1 }
    | TryOut.exc e msg ns1 s1 =>
      { retc := 0
        response := some
          { code := AckCode.PERMANENT_FAILURE, err_no := e, err_msg := msg
            transactionid := md.reqid, md_ino := 0 },
        ns := ns1, bcasts := [], capDeletes := [], caps := s1 }
    | TryOut.okk (bc, cd) ns1 s1 =>
      { retc := 0
        response := some
          { code := AckCode.OK, err_no := 0, err_msg := "",
            transactionid := md.reqid, md_ino := 0 },
        ns := ns1, bcasts := bc, capDeletes := cd, caps := s1 }
  else
    { retc := EPERM, response := none, ns := ns, bcasts := [], capDeletes := [],
      caps := s }

/-! ### C4: move permission checks -/

/-- C4 (amended): a SET request classified as a directory MOVE re-checks
write permission on the source parent via ValidatePERM; when the requester
holds a valid cap for the destination but the source permission oracle
denies, the request fails with the bare return code EPERM, no response is
serialized, the namespace is unchanged and no broadcast is emitted.  File
moves perform no such source re-check (see the counterexample). -/
theorem dir_move_requires_source_write (s : CapStore) (perm : Nat → Bool)
    (q : Bool) (now leasetime : Nat) (ns : NSpace) (md : MDReq) (cmd : ContMD)
    (hcap : capOrPermOK s perm ns md (W_OK ||| SA_OK) now = true)
    (hdir : md.isDir = true)
    (hino : md.md_ino ≠ 0) (hexcl : md.exclusive = false)
    (himpl : md.implied_authid = "")
    (hcmd : mfind ns.conts md.md_ino = some cmd)
    (hpcmd : (mfind ns.conts md.md_pino).isSome = true)
    (hmove : cmd.parentId ≠ md.md_pino)
    (hnoperm : validatePERM perm ns cmd.parentId = false) :
    handleSet s perm q now leasetime ns md =
      { retc := EPERM, response := none, ns := ns, bcasts := [],
        capDeletes := [], caps := s } := by
  obtain ⟨pcmd, hp⟩ := Option.isSome_iff_exists.mp hpcmd
  have hbody : setDirBody s perm now leasetime ns md = TryOut.bare EPERM ns s := by
    unfold setDirBody
    rw [if_neg (by simp [hexcl]), if_pos hino, if_neg (by simp [himpl]), hcmd, hp]
    simp only [hmove, hnoperm]
    rw [if_pos hmove]
    simp
  unfold handleSet
  rw [hcap]
  simp only [if_true, hdir]
  unfold handleSetDir
  rw [hbody]

/-- Concrete data for the C4 evaluations: a file f (fid 7) in container 10,
an empty container 20, and a cap valid on container 20 only. -/
def contP1 : ContMD :=
  { parentId := 1, name := "p1", subconts := [], cfiles := [("f", 7)],
    uid := 0, gid := 0, mode := 448, ctime := 0, mtime := 0, attrs := [] }

def contP2 : ContMD :=
  { parentId := 1, name := "p2", subconts := [], cfiles := [],
    uid := 0, gid := 0, mode := 448, ctime := 0, mtime := 0, attrs := [] }

def fileF : FileMD :=
  { contId := 10, name := "f", size := 0, uid := 0, gid := 0, flags := 420
    ctime := 0, mtime := 0, attrs := [] }

def nsMove : NSpace :=
  { conts := [(10, contP1), (20, contP2)], files := [(7, fileF)],
    nextCid := 100, nextFid := 100 }

def capMove : Cap :=
  { authid := "am", id := 20, clientid := "cm", clientuuid := "um",
    uid := 0, gid := 0, mode := 255, vtime := 1000000 }

def storeMove : CapStore := CapStore.empty.store capMove

def mdMove : MDReq :=
  { md_ino := fidToInode 7, md_pino := 20, name := "f", authid := "am",
    implied_authid := "", mv_authid := "", reqid := 42, uid := 0, gid := 0
    mode := 420, isDir := false, exclusive := false, ctime := 5, mtime := 5
    btime := 5, pmtime := 0, size := 0, attrs := [], targetHlnk := none
    clientid := "cm", clientuuid := "um" }

/-- C4 counterexample: a SET classified as a file MOVE (md_ino present, the
file lives in container 10, the request names parent 20) succeeds, emits an
MD broadcast and re-parents the file, although the permission oracle denies
write everywhere, so the requester holds write permission only through the
destination cap: the file-move path never re-checks the source parent. -/
theorem file_move_no_source_check_counterexample :
    (handleSet storeMove (fun _ => false) false 0 300 nsMove mdMove).retc = 0 ∧
    (handleSet storeMove (fun _ => false) false 0 300 nsMove mdMove).response =
      some { code := AckCode.OK, err_no := 0, err_msg := "",
             transactionid := 42, md_ino := fidToInode 7 } ∧
    (handleSet storeMove (fun _ => false) false 0 300 nsMove mdMove).bcasts =
      [BCast.mdUpdate (fidToInode 7) 20] ∧
    (mfind (handleSet storeMove (fun _ => false) false 0 300 nsMove mdMove).ns.files
        7).map FileMD.contId = some 20 := by
  refine ⟨rfl, rfl, rfl, rfl⟩

/-- Concrete data for the C4 witness: directory d (id 40) inside container
30, destination container 50, cap valid on 50 only, oracle denies. -/
def contSrc : ContMD :=
  { parentId := 1, name := "src", subconts := [("d", 40)], cfiles := [],
    uid := 0, gid := 0, mode := 448, ctime := 0, mtime := 0, attrs := [] }

def contD : ContMD :=
  { parentId := 30, name := "d", subconts := [], cfiles := [],
    uid := 0, gid := 0, mode := 448, ctime := 0, mtime := 0, attrs := [] }

def contDst : ContMD :=
  { parentId := 1, name := "dst", subconts := [], cfiles := [],
    uid := 0, gid := 0, mode := 448, ctime := 0, mtime := 0, attrs := [] }

def nsDirMove : NSpace :=
  { conts := [(30, contSrc), (40, contD), (50, contDst)], files := [],
    nextCid := 100, nextFid := 100 }

def capDirMove : Cap :=
  { authid := "ad", id := 50, clientid := "cd", clientuuid := "ud",
    uid := 0, gid := 0, mode := 255, vtime := 1000000 }

def storeDirMove : CapStore := CapStore.empty.store capDirMove

def mdDirMove : MDReq :=
  { md_ino := 40, md_pino := 50, name := "d", authid := "ad",
    implied_authid := "", mv_authid := "mv", reqid := 43, uid := 0, gid := 0
    mode := 16832, isDir := true, exclusive := false, ctime := 5, mtime := 5
    btime := 5, pmtime := 0, size := 0, attrs := [], targetHlnk := none
    clientid := "cd", clientuuid := "ud" }

/-- C4 witness: the directory-move EPERM path evaluated on the concrete
namespace. -/
theorem dir_move_requires_source_write_witness :
    handleSet storeDirMove (fun _ => false) false 0 300 nsDirMove mdDirMove =
      { retc := EPERM, response := none, ns := nsDirMove, bcasts := [],
        capDeletes := [], caps := storeDirMove } := by
  exact dir_move_requires_source_write storeDirMove (fun _ => false) false 0 300
    nsDirMove mdDirMove contD rfl rfl (by decide) rfl rfl rfl rfl (by decide) rfl

/-! ### C5: error responses of the SET and DELETE paths -/

/-- C5 (amended): error paths of SET and DELETE that arise from namespace
exceptions return an ACK with PERMANENT_FAILURE carrying the exception errno,
its message and the request transactionid (and the rmdir-of-a-non-empty
directory path builds the same ack inline); but the cap/permission validation
failures return the bare error code EPERM with no response serialized at all. -/
theorem set_delete_error_responses (s : CapStore) (perm : Nat → Bool) (q : Bool)
    (now lt : Nat) (ns : NSpace) (md : MDReq) :
    (∀ e msg ns1 s1, md.isDir = true →
      capOrPermOK s perm ns md (W_OK ||| SA_OK) now = true →
      setDirBody s perm now lt ns md = TryOut.exc e msg ns1 s1 →
      handleSet s perm q now lt ns md =
        { retc := 0
          response := some { code := AckCode.PERMANENT_FAILURE, err_no := e,
                             err_msg := msg, transactionid := md.reqid, md_ino := 0 },
          ns := ns1, bcasts := [], capDeletes := [], caps := s1 }) ∧
    (∀ e msg ns1 s1, md.isDir = false →
      capOrPermOK s perm ns md (W_OK ||| SA_OK) now = true →
      setFileBody s q ns md = TryOut.exc e msg ns1 s1 →
      handleSet s perm q now lt ns md =
        { retc := 0
          response := some { code := AckCode.PERMANENT_FAILURE, err_no := e,
                             err_msg := msg, transactionid := md.reqid, md_ino := 0 },
          ns := ns1, bcasts := [], capDeletes := [], caps := s1 }) ∧
    (∀ e msg ns1 s1,
      capOrPermOK s perm ns md D_OK now = true →
      deleteBody s ns md = TryOut.exc e msg ns1 s1 →
      handleDelete s perm now ns md =
        { retc := 0
          response := some { code := AckCode.PERMANENT_FAILURE, err_no := e,
                             err_msg := msg, transactionid := md.reqid, md_ino := 0 },
          ns := ns1, bcasts := [], capDeletes := [], caps := s1 }) ∧
    (capOrPermOK s perm ns md (W_OK ||| SA_OK) now = false →
      handleSet s perm q now lt ns md =
        { retc := EPERM, response := none, ns := ns, bcasts := [],
          capDeletes := [], caps := s }) ∧
    (capOrPermOK s perm ns md D_OK now = false →
      handleDelete s perm now ns md =
        { retc := EPERM, response := none, ns := ns, bcasts := [],
          capDeletes := [], caps := s }) := by
  refine ⟨?_, ?_, ?_, ?_, ?_⟩
  · intro e msg ns1 s1 hdir hcap hbody
    unfold handleSet
    rw [hcap]
    simp only [if_true, hdir]
    unfold handleSetDir
    rw [hbody]
  · intro e msg ns1 s1 hdir hcap hbody
    unfold handleSet
    rw [hcap]
    simp only [if_true, hdir]
    unfold handleSetFile
    rw [hbody]
    simp
  · intro e msg ns1 s1 hcap hbody
    unfold handleDelete
    rw [hcap]
    simp only [if_true]
    rw [hbody]
  · intro hcap
    unfold handleSet
    rw [hcap]
    simp
  · intro hcap
    unfold handleDelete
    rw [hcap]
    simp

/-- Concrete data for the C5 evaluations. -/
def nsEmpty : NSpace := { conts := [], files := [], nextCid := 1, nextFid := 1 }

def mdNoCap : MDReq :=
  { md_ino := 0, md_pino := 3, name := "x", authid := "none",
    implied_authid := "", mv_authid := "", reqid := 5, uid := 0, gid := 0
    mode := 16832, isDir := true, exclusive := false, ctime := 0, mtime := 0
    btime := 0, pmtime := 0, size := 0, attrs := [], targetHlnk := none
    clientid := "c", clientuuid := "u" }

/-- C5 counterexample: a SET whose cap validation fails (empty cap store) and
whose ACL fallback denies is an error path of the mutation, yet the client
receives no response at all - HandleMD returns the bare code EPERM without
serializing any ACK, contradicting the claim that every error path returns a
PERMANENT_FAILURE ack with err_no, err_msg and transactionid. -/
theorem set_error_no_ack_counterexample :
    (handleSet CapStore.empty (fun _ => false) false 0 300 nsEmpty mdNoCap).retc =
      EPERM ∧
    (handleSet CapStore.empty (fun _ => false) false 0 300 nsEmpty
        mdNoCap).response = none :=
  ⟨rfl, rfl⟩

def capDelW : Cap :=
  { authid := "aw", id := 3, clientid := "cw", clientuuid := "uw",
    uid := 0, gid := 0, mode := 255, vtime := 1000000 }

def storeDelW : CapStore := CapStore.empty.store capDelW

def mdDelW : MDReq :=
  { md_ino := 9, md_pino := 3, name := "gone", authid := "aw",
    implied_authid := "", mv_authid := "", reqid := 77, uid := 0, gid := 0
    mode := 16832, isDir := true, exclusive := false, ctime := 0, mtime := 0
    btime := 0, pmtime := 0, size := 0, attrs := [], targetHlnk := none
    clientid := "cw", clientuuid := "uw" }

/-- C5 witness: a DELETE with a valid cap whose parent lookup throws ENOENT
produces the PERMANENT_FAILURE ack with the exception errno and the request
transactionid. -/
theorem set_delete_error_responses_witness :
    handleDelete storeDelW (fun _ => false) 0 nsEmpty mdDelW =
      { retc := 0
        response := some { code := AckCode.PERMANENT_FAILURE, err_no := ENOENT,
                           err_msg := "No such file or directory",
                           transactionid := 77, md_ino := 0 },
        ns := nsEmpty, bcasts := [], capDeletes := [], caps := storeDelW } := by
  exact (set_delete_error_responses storeDelW (fun _ => false) false 0 300 nsEmpty
    mdDelW).2.2.1 ENOENT "No such file or directory" nsEmpty storeDelW rfl rfl

/-! ### C8: hardlink reference counting -/

/-- A hardlink CREATE request: md_ino 0 (creation), parent P, link name nm,
auth-id a, target string ////hlnk<t> parsed to the target inode t. -/
def hlnkReq (P t : Nat) (a nm : String) : MDReq :=
  { md_ino := 0, md_pino := P, name := nm, authid := a, implied_authid := ""
    mv_authid := "", reqid := 0, uid := 0, gid := 0, mode := 0, isDir := false
    exclusive := false, ctime := 0, mtime := 0, btime := 0, pmtime := 0
    size := 0, attrs := [], targetHlnk := some t, clientid := ""
    clientuuid := "" }

/-- The nlink value written by one hardlink creation (FuseServer.cc
3090-3092): previous value plus one, or one when the attribute is absent. -/
def nlinkBump (o : Option Nat) : Nat :=
  match o with
  | some k => k + 1
  | none => 1

/-- The nlink attribute after n hardlink creations starting from o. -/
def nlinkAfter (o : Option Nat) (n : Nat) : Option Nat :=
  if n = 0 then o else some (o.getD 0 + n)

/-- n successive hardlink CREATE requests against parent P and target t,
link i named names i. -/
def iterHlnk (s : CapStore) (perm : Nat → Bool) (P t : Nat) (a : String)
    (names : Nat → String) : Nat → NSpace → NSpace
  | 0, ns => ns
  | n + 1, ns =>
    (handleSet s perm false 0 300 (iterHlnk s perm P t a names n ns)
      (hlnkReq P t a (names n))).ns

theorem nlinkBump_getD (o : Option Nat) : nlinkBump o = o.getD 0 + 1 := by
  cases o <;> rfl

theorem nlinkAfter_zero (o : Option Nat) : nlinkAfter o 0 = o := rfl

theorem nlinkAfter_succ (o : Option Nat) (n : Nat) :
    nlinkAfter o (n + 1) = some ((nlinkAfter o n).getD 0 + 1) := by
  cases n <;> cases o <;> simp [nlinkAfter] <;> omega

theorem hlnk_create_step (s : CapStore) (perm : Nat → Bool) (P t : Nat)
    (a nm : String) (cp : Cap)
    (hcap : validateCAP s a 0 P (W_OK ||| SA_OK) 0 = Except.ok cp)
    (ns : NSpace) (pcmd : ContMD) (f : FileMD)
    (hP : mfind ns.conts P = some pcmd)
    (hsub : mfind pcmd.subconts nm = none)
    (htgt : mfind ns.files (inodeToFid t) = some f)
    (ht : inodeToFid t < ns.nextFid) :
    (handleSet s perm false 0 300 ns (hlnkReq P t a nm)).retc = 0 ∧
    mfind (handleSet s perm false 0 300 ns (hlnkReq P t a nm)).ns.conts P =
      some { pcmd with cfiles := mset pcmd.cfiles nm ns.nextFid } ∧
    mfind (handleSet s perm false 0 300 ns (hlnkReq P t a nm)).ns.files
        (inodeToFid t) =
      some { f with attrs := mset f.attrs k_nlink (nlinkBump (mfind f.attrs k_nlink)) } ∧
    (handleSet s perm false 0 300 ns (hlnkReq P t a nm)).ns.nextFid =
      ns.nextFid + 1 := by
  have hne : inodeToFid t ≠ ns.nextFid := Nat.ne_of_lt ht
  have hcap2 : capOrPermOK s perm ns (hlnkReq P t a nm) (W_OK ||| SA_OK) 0 =
      true := by
    unfold capOrPermOK
    rw [show (hlnkReq P t a nm).authid = a from rfl,
      show (hlnkReq P t a nm).md_ino = 0 from rfl,
      show (hlnkReq P t a nm).md_pino = P from rfl, hcap]
  have hbody : setFileBody s false ns (hlnkReq P t a nm) =
      TryOut.okk (fidToInode ns.nextFid, [BCast.mdUpdate t P])
        { conts := mset ns.conts P
            { pcmd with cfiles := mset pcmd.cfiles nm ns.nextFid }
          files := mset (mset ns.files (inodeToFid t)
              { f with attrs := mset f.attrs k_nlink (nlinkBump (mfind f.attrs k_nlink)) })
            ns.nextFid
            { contId := P, name := nm, size := 0, uid := 0, gid := 0
              flags := 0, ctime := 0, mtime := 0, attrs := [(k_mdino, t)] }
          nextCid := ns.nextCid
          nextFid := ns.nextFid + 1 } s := by
    cases hnl : mfind f.attrs k_nlink with
    | none =>
      simp [setFileBody, hlnkReq, hP, hsub, htgt, hnl, nlinkBump,
        NSpace.setFile, NSpace.setCont]
    | some k =>
      simp [setFileBody, hlnkReq, hP, hsub, htgt, hnl, nlinkBump,
        NSpace.setFile, NSpace.setCont]
  have h1 : handleSet s perm false 0 300 ns (hlnkReq P t a nm) =
      handleSetFile s false ns (hlnkReq P t a nm) := by
    unfold handleSet
    rw [hcap2]
    simp [hlnkReq]
  rw [h1]
  unfold handleSetFile
  rw [hbody]
  refine ⟨rfl, ?_, ?_, rfl⟩
  · exact mfind_mset_self _ _ _
  · exact (mfind_mset_ne _ _ _ _ hne).trans (mfind_mset_self _ _ _)

theorem iterHlnk_inv (s : CapStore) (perm : Nat → Bool) (P t : Nat)
    (a : String) (names : Nat → String) (cp : Cap)
    (hcap : validateCAP s a 0 P (W_OK ||| SA_OK) 0 = Except.ok cp)
    (ns : NSpace) (pcmd : ContMD) (f : FileMD)
    (hP : mfind ns.conts P = some pcmd)
    (htgt : mfind ns.files (inodeToFid t) = some f)
    (ht : inodeToFid t < ns.nextFid)
    (n : Nat)
    (hsub : ∀ i, i < n → mfind pcmd.subconts (names i) = none) :
    ∃ pc2 f2,
      mfind (iterHlnk s perm P t a names n ns).conts P = some pc2 ∧
      pc2.subconts = pcmd.subconts ∧
      mfind (iterHlnk s perm P t a names n ns).files (inodeToFid t) = some f2 ∧
      mfind f2.attrs k_nlink = nlinkAfter (mfind f.attrs k_nlink) n ∧
      inodeToFid t < (iterHlnk s perm P t a names n ns).nextFid ∧
      (∀ i, i < n →
        (handleSet s perm false 0 300 (iterHlnk s perm P t a names i ns)
          (hlnkReq P t a (names i))).retc = 0) := by
  induction n with
  | zero =>
    refine ⟨pcmd, f, hP, rfl, htgt, ?_, ht, ?_⟩
    · rw [nlinkAfter_zero]
    · intro i hi
      omega
  | succ n ih =>
    obtain ⟨pc2, f2, h1, h2, h3, h4, h5, h6⟩ :=
      ih (fun i hi => hsub i (Nat.lt_trans hi (Nat.lt_succ_self n)))
    have hsub2 : mfind pc2.subconts (names n) = none := by
      rw [h2]
      exact hsub n (Nat.lt_succ_self n)
    obtain ⟨hs1, hs2, hs3, hs4⟩ :=
      hlnk_create_step s perm P t a (names n) cp hcap
        (iterHlnk s perm P t a names n ns) pc2 f2 h1 hsub2 h3 h5
    refine ⟨_, _, hs2, h2, hs3, ?_, ?_, ?_⟩
    · rw [nlinkAfter_succ, ← h4, ← nlinkBump_getD]
      exact mfind_mset_self _ _ _
    · rw [show iterHlnk s perm P t a names (n + 1) ns =
          (handleSet s perm false 0 300 (iterHlnk s perm P t a names n ns)
            (hlnkReq P t a (names n))).ns from rfl, hs4]
      omega
    · intro i hi
      rcases Nat.lt_succ_iff_lt_or_eq.mp hi with hlt | heq
      · exact h6 i hlt
      · rw [heq]
        exact hs1

/-- C8: hardlink reference counting of HandleMD.  (a) Starting from a target
file t carrying no sys.eos.nlink attribute, N successful hardlink CREATE
requests (target ////hlnk<t>) each return 0 and leave int(xattr(t,
sys.eos.nlink)) = N (FuseServer.cc 3076-3129).  (b) A successful DELETE of a
link entry carrying sys.eos.mdino = t whose target counter is k+1 decrements
the counter to exactly k and keeps the target file linked (FuseServer.cc
3521-3537).  (c) When the counter is 0, so that the decrement would make it
negative, the DELETE also unlinks the target: its container id is zeroed and
its directory entry is removed from the parent (FuseServer.cc 3538-3545). -/
theorem hardlink_nlink_invariant :
    (∀ (s : CapStore) (perm : Nat → Bool) (P t : Nat) (a : String)
        (names : Nat → String) (cp : Cap) (ns : NSpace) (pcmd : ContMD)
        (f : FileMD) (N : Nat),
      validateCAP s a 0 P (W_OK ||| SA_OK) 0 = Except.ok cp →
      mfind ns.conts P = some pcmd →
      (∀ i, i < N → mfind pcmd.subconts (names i) = none) →
      mfind ns.files (inodeToFid t) = some f →
      mfind f.attrs k_nlink = none →
      inodeToFid t < ns.nextFid →
      1 ≤ N →
      (∀ i, i < N →
        (handleSet s perm false 0 300 (iterHlnk s perm P t a names i ns)
          (hlnkReq P t a (names i))).retc = 0) ∧
      ∃ f2,
        mfind (iterHlnk s perm P t a names N ns).files (inodeToFid t) =
          some f2 ∧
        mfind f2.attrs k_nlink = some N) ∧
    (∀ (s : CapStore) (perm : Nat → Bool) (now t k : Nat) (ns : NSpace)
        (md : MDReq) (cp : Cap) (pcmd : ContMD) (fmd gmd : FileMD),
      validateCAP s md.authid md.md_ino md.md_pino D_OK now = Except.ok cp →
      md.isDir = false →
      mfind ns.conts md.md_pino = some pcmd →
      mfind ns.files (inodeToFid md.md_ino) = some fmd →
      mfind fmd.attrs k_mdino = some t →
      mfind ns.files (inodeToFid t) = some gmd →
      mfind gmd.attrs k_nlink = some (k + 1) →
      inodeToFid md.md_ino ≠ inodeToFid t →
      (handleDelete s perm now ns md).retc = 0 ∧
      ∃ g2,
        mfind (handleDelete s perm now ns md).ns.files (inodeToFid t) =
          some g2 ∧
        mfind g2.attrs k_nlink = some k ∧ g2.contId = gmd.contId) ∧
    (∀ (s : CapStore) (perm : Nat → Bool) (now t : Nat) (ns : NSpace)
        (md : MDReq) (cp : Cap) (pcmd : ContMD) (fmd gmd : FileMD),
      validateCAP s md.authid md.md_ino md.md_pino D_OK now = Except.ok cp →
      md.isDir = false →
      mfind ns.conts md.md_pino = some pcmd →
      mfind ns.files (inodeToFid md.md_ino) = some fmd →
      mfind fmd.attrs k_mdino = some t →
      mfind ns.files (inodeToFid t) = some gmd →
      mfind gmd.attrs k_nlink = some 0 →
      inodeToFid md.md_ino ≠ inodeToFid t →
      (handleDelete s perm now ns md).retc = 0 ∧
      (∃ g2,
        mfind (handleDelete s perm now ns md).ns.files (inodeToFid t) =
          some g2 ∧ g2.contId = 0) ∧
      ∃ pc2,
        mfind (handleDelete s perm now ns md).ns.conts md.md_pino =
          some pc2 ∧
        mfind pc2.cfiles gmd.name = none) := by
  refine ⟨?_, ?_, ?_⟩
  · intro s perm P t a names cp ns pcmd f N hcap hP hsub htgt hnl ht hN
    obtain ⟨pc2, f2, h1, h2, h3, h4, h5, h6⟩ :=
      iterHlnk_inv s perm P t a names cp hcap ns pcmd f hP htgt ht N hsub
    have hN0 : N ≠ 0 := by omega
    refine ⟨h6, f2, h3, ?_⟩
    rw [h4, hnl]
    simp [nlinkAfter, hN0]
  · intro s perm now t k ns md cp pcmd fmd gmd hcap hdir hP hL hmd hg hk hne
    have hcapD : capOrPermOK s perm ns md D_OK now = true := by
      unfold capOrPermOK
      rw [hcap]
    have hbody : deleteBody s ns md =
        TryOut.okk
          ([BCast.release md.authid, BCast.deletion md.md_pino md.name],
            [md.md_ino])
          ((((ns.setCont md.md_pino
                { pcmd with mtime := md.mtime }).setFile (inodeToFid t)
                { gmd with attrs := mset gmd.attrs k_nlink k }).setCont
              md.md_pino
              { pcmd with
                  mtime := md.mtime
                  cfiles := merase pcmd.cfiles fmd.name }).setFile
            (inodeToFid md.md_ino) { fmd with contId := 0 }) s := by
      simp [deleteBody, hP, hdir, hL, hmd, hg, hk, NSpace.setFile,
        NSpace.setCont, add_sub_cancel_right, mset_mset_self]
    unfold handleDelete
    rw [hcapD]
    simp only [if_true]
    rw [hbody]
    refine ⟨rfl, { gmd with attrs := mset gmd.attrs k_nlink k }, ?_, ?_, rfl⟩
    · exact (mfind_mset_ne _ _ _ _ (Ne.symm hne)).trans (mfind_mset_self _ _ _)
    · exact mfind_mset_self _ _ _
  · intro s perm now t ns md cp pcmd fmd gmd hcap hdir hP hL hmd hg hk hne
    have hcapD : capOrPermOK s perm ns md D_OK now = true := by
      unfold capOrPermOK
      rw [hcap]
    have hbody : deleteBody s ns md =
        TryOut.okk
          ([BCast.release md.authid, BCast.deletion md.md_pino md.name],
            [md.md_ino])
          ((((ns.setCont md.md_pino
                { pcmd with
                    mtime := md.mtime
                    cfiles := merase pcmd.cfiles gmd.name }).setFile
                (inodeToFid t) { gmd with contId := 0 }).setCont md.md_pino
              { pcmd with
                  mtime := md.mtime
                  cfiles := merase (merase pcmd.cfiles gmd.name)
                    fmd.name }).setFile
            (inodeToFid md.md_ino) { fmd with contId := 0 }) s := by
      simp [deleteBody, hP, hdir, hL, hmd, hg, hk, NSpace.setFile,
        NSpace.setCont, mset_mset_self]
    unfold handleDelete
    rw [hcapD]
    simp only [if_true]
    rw [hbody]
    refine ⟨rfl, ⟨{ gmd with contId := 0 }, ?_, rfl⟩,
      { pcmd with
          mtime := md.mtime
          cfiles := merase (merase pcmd.cfiles gmd.name) fmd.name }, ?_, ?_⟩
    · exact (mfind_mset_ne _ _ _ _ (Ne.symm hne)).trans (mfind_mset_self _ _ _)
    · exact mfind_mset_self _ _ _
    · show mfind (merase (merase pcmd.cfiles gmd.name) fmd.name) gmd.name =
        none
      rw [mfind_merase, mfind_merase]
      by_cases h : gmd.name = fmd.name <;> simp [h]


/-- Concrete data for the C8 evaluations: parent container 1, original file
at file id 2 (inode 536870912), cap a8 on the parent. -/
def cap8 : Cap :=
  { authid := "a8", id := 1, clientid := "c8", clientuuid := "u8",
    uid := 0, gid := 0, mode := 255, vtime := 1000000 }

def s8 : CapStore := CapStore.empty.store cap8

def perm8 : Nat → Bool := fun _ => false

def names8 : Nat → String := fun i => if i = 0 then "l0" else "l1"

def cont8 : ContMD :=
  { parentId := 0, name := "d", subconts := [], cfiles := [("orig", 2)],
    uid := 0, gid := 0, mode := 0, ctime := 0, mtime := 0, attrs := [] }

def file8 : FileMD :=
  { contId := 1, name := "orig", size := 0, uid := 0, gid := 0, flags := 0,
    ctime := 0, mtime := 0, attrs := [] }

def ns8 : NSpace :=
  { conts := [(1, cont8)], files := [(2, file8)], nextCid := 2, nextFid := 3 }

/-- The link entry at file id 9 pointing at inode 536870912. -/
def linkB : FileMD :=
  { contId := 1, name := "lnk", size := 0, uid := 0, gid := 0, flags := 0,
    ctime := 0, mtime := 0, attrs := [(k_mdino, 536870912)] }

def tgtB : FileMD :=
  { contId := 1, name := "orig", size := 0, uid := 0, gid := 0, flags := 0,
    ctime := 0, mtime := 0, attrs := [(k_nlink, 1)] }

def tgtC : FileMD :=
  { contId := 1, name := "orig", size := 0, uid := 0, gid := 0, flags := 0,
    ctime := 0, mtime := 0, attrs := [(k_nlink, 0)] }

def contB : ContMD :=
  { parentId := 0, name := "d", subconts := [],
    cfiles := [("lnk", 9), ("orig", 2)], uid := 0, gid := 0, mode := 0,
    ctime := 0, mtime := 0, attrs := [] }

def nsB8 : NSpace :=
  { conts := [(1, contB)], files := [(9, linkB), (2, tgtB)], nextCid := 2,
    nextFid := 10 }

def nsC8 : NSpace :=
  { conts := [(1, contB)], files := [(9, linkB), (2, tgtC)], nextCid := 2,
    nextFid := 10 }

/-- The DELETE request for the link entry lnk (inode of file id 9). -/
def mdB : MDReq :=
  { md_ino := 2415919104, md_pino := 1, name := "lnk", authid := "a8",
    implied_authid := "", mv_authid := "", reqid := 0, uid := 0, gid := 0
    mode := 0, isDir := false, exclusive := false, ctime := 0, mtime := 0
    btime := 0, pmtime := 0, size := 0, attrs := [], targetHlnk := none
    clientid := "c8", clientuuid := "u8" }

/-- C8 witness: two hardlink creations against a fresh target leave nlink 2;
deleting a link entry whose target counter is 1 leaves the target linked with
counter 0; deleting a link entry whose target counter is 0 unlinks the target
(container id zeroed, parent entry removed). -/
theorem hardlink_nlink_invariant_witness :
    ((∀ i, i < 2 →
        (handleSet s8 perm8 false 0 300
          (iterHlnk s8 perm8 1 536870912 "a8" names8 i ns8)
          (hlnkReq 1 536870912 "a8" (names8 i))).retc = 0) ∧
      ∃ f2,
        mfind (iterHlnk s8 perm8 1 536870912 "a8" names8 2 ns8).files
          (inodeToFid 536870912) = some f2 ∧
        mfind f2.attrs k_nlink = some 2) ∧
    ((handleDelete s8 perm8 0 nsB8 mdB).retc = 0 ∧
      ∃ g2,
        mfind (handleDelete s8 perm8 0 nsB8 mdB).ns.files
          (inodeToFid 536870912) = some g2 ∧
        mfind g2.attrs k_nlink = some 0 ∧ g2.contId = 1) ∧
    ((handleDelete s8 perm8 0 nsC8 mdB).retc = 0 ∧
      (∃ g2,
        mfind (handleDelete s8 perm8 0 nsC8 mdB).ns.files
          (inodeToFid 536870912) = some g2 ∧ g2.contId = 0) ∧
      ∃ pc2,
        mfind (handleDelete s8 perm8 0 nsC8 mdB).ns.conts 1 = some pc2 ∧
        mfind pc2.cfiles "orig" = none) := by
  refine ⟨hardlink_nlink_invariant.1 s8 perm8 1 536870912 "a8" names8 cap8
      ns8 cont8 file8 2 rfl rfl (fun i _ => rfl) rfl rfl (by decide)
      (by decide),
    hardlink_nlink_invariant.2.1 s8 perm8 0 536870912 0 nsB8 mdB cap8 contB
      linkB tgtB rfl rfl rfl rfl rfl rfl rfl (by decide),
    hardlink_nlink_invariant.2.2 s8 perm8 0 536870912 nsC8 mdB cap8 contB
      linkB tgtC rfl rfl rfl rfl rfl rfl rfl (by decide)⟩

end EosFuse
